import Mathlib

/-!
# Snapshot verification (`bench/scenario/verifyWithSnapshot.go`)

A shallow embedding of the snapshot verifiers and of the orchestrator
`verifyWithSnapshot`.

* A Go `error` is an `Option`: `none` is the nil error.
* A Go pointer result is an `Option`: `none` is the nil pointer; dereferencing it
  is the outcome `Outcome.panicked`.
* A verifier is run against a `Codec` (file reading and the decoders of the standard
  library, taken as parameters) and a `Client` (the live system); it yields the list
  of live calls it issued together with its outcome.
-/

namespace Scenario

/-! ## Errors and failures -/

/-- A non-nil Go `error` value. -/
structure GoError where
  text : String
  deriving DecidableEq, Repr

/-- Modelled from the spec: the error codes of package `bench/fails`, which is not
part of the sources at hand. The spec names two fault domains: the tooling fault
(`fails.ErrBenchmarker`) and the application fault (`fails.ErrApplication`). -/
inductive Code where
  | ErrBenchmarker
  | ErrApplication
  deriving DecidableEq, Repr

/-- A non-nil error built by package `failure`: its code, the endpoint named by its
`failure.Message`, the file named by its `failure.Messagef("snapshot: %s", _)` when
there is one, and the error it wraps when there is one. -/
structure Failure where
  code : Code
  message : String
  snapshot : Option String
  cause : Option GoError
  deriving DecidableEq, Repr

namespace failure

/-- The library call `failure.New(code, wrappers...)`: always a non-nil error. -/
def New (code : Code) (message : String) (snapshot : Option String) : Option Failure :=
  some { code := code, message := message, snapshot := snapshot, cause := none }

/-- The library call `failure.Translate(err, code, wrappers...)` of
`github.com/morikuni/failure`. It wraps `err` with the code and the wrappers; the
wrapping constructors of that library return nil when they are given a nil error, so
a nil `err` comes back as nil, whatever the code and the wrappers. -/
def Translate (err : Option GoError) (code : Code) (message : String)
    (snapshot : Option String) : Option Failure :=
  match err with
  | none => none
  | some e => some { code := code, message := message, snapshot := snapshot, cause := some e }

end failure

/-- How a Go function of result type `error` ends: it returns (nil or an error), or
it panics. -/
inductive Outcome where
  | returned (err : Option Failure)
  | panicked
  deriving DecidableEq, Repr

/-! ## Snapshots -/

structure Request where
  Method : String
  Resource : String
  Query : String
  Body : String
  deriving DecidableEq, Repr

structure Response where
  StatusCode : Int
  Body : String
  deriving DecidableEq, Repr

structure Snapshot where
  Request : Request
  Response : Response
  deriving DecidableEq, Repr

/-- Status `http.StatusOK`. -/
def StatusOK : Int := 200

/-- Status `http.StatusNotFound`. -/
def StatusNotFound : Int := 404

/-! ## Domain values and their comparison -/

/-- Named scalar fields of a record, each with its decoded value. -/
abbrev Fields := List (String × String)

/-- A `float64`, as its 64-bit pattern. -/
structure Float64 where
  bits : Nat
  deriving DecidableEq, Repr

/-- Whether the pattern is a NaN: exponent all ones, fraction not zero. -/
def Float64.isNaN (x : Float64) : Bool :=
  (x.bits / 2 ^ 52) % 2 ^ 11 == 2047 && x.bits % 2 ^ 52 != 0

/-- The Go comparison `==` on `float64`: a NaN equals nothing, both zeros are equal. -/
def Float64.eq (x y : Float64) : Bool :=
  !x.isNaN && !y.isNaN &&
    (x.bits % 2 ^ 64 == y.bits % 2 ^ 64 || (x.bits % 2 ^ 63 == 0 && y.bits % 2 ^ 63 == 0))

/-- Modelled from the spec: `asset.Chair` is declared outside the sources at hand. A
chair has exported fields, which are compared, and internal fields the system does
not expose, which are unexported. -/
structure Chair where
  exported : Fields
  unexported : Fields
  deriving DecidableEq, Repr

/-- Modelled from the spec: `asset.Estate` is declared outside the sources at hand.
An estate has the coordinate fields `Latitude` and `Longitude`, further exported
fields, and unexported internal fields. -/
structure Estate where
  Latitude : Float64
  Longitude : Float64
  exported : Fields
  unexported : Fields
  deriving DecidableEq, Repr

/-- Modelled from the spec: `asset.ChairSearchCondition` is declared outside the
sources at hand; it holds exported scalar data only. -/
structure ChairSearchCondition where
  exported : Fields
  deriving DecidableEq, Repr

/-- Modelled from the spec: `asset.EstateSearchCondition` is declared outside the
sources at hand; it holds exported scalar data only. -/
structure EstateSearchCondition where
  exported : Fields
  deriving DecidableEq, Repr

/-- Modelled from the spec: `client.ChairsResponse` is declared outside the sources
at hand: exported scalar fields and a slice of chairs (`none` is the nil slice). -/
structure ChairsResponse where
  exported : Fields
  Chairs : Option (List Chair)
  deriving DecidableEq, Repr

/-- Modelled from the spec: `client.EstatesResponse` is declared outside the sources
at hand: exported scalar fields and a slice of estates (`none` is the nil slice). -/
structure EstatesResponse where
  exported : Fields
  Estates : Option (List Estate)
  deriving DecidableEq, Repr

/-- Modelled from the spec: `client.Coordinates` is declared outside the sources at
hand: the coordinate list sent to the polygon search. -/
structure Coordinates where
  points : List (Float64 × Float64)
  deriving DecidableEq, Repr

/-- The parsed query `url.Values`. -/
abbrev Values := List (String × List String)

/-- The comparison options the source declares. -/
inductive CmpOption where
  | ignoreChairUnexported
  | ignoreEstateUnexported
  | ignoreEstateLatitude
  | ignoreEstateLongitude
  deriving DecidableEq, Repr

namespace cmp

/-- One step of the comparison of two slices: compare the elements at one position
and combine with the result so far; a panic (`none`) stays a panic. -/
def EqualStep {α : Type} (eq : α → α → Option Bool) (acc : Option Bool) (p : α × α) :
    Option Bool :=
  match acc with
  | none => none
  | some b =>
    match eq p.1 p.2 with
    | none => none
    | some b2 => some (b && b2)

/-- Comparison of two slices by `cmp.Equal`: both nil, or both non-nil of the same
length with equal elements. A nil slice and an empty slice differ. `none` is a panic
of the element comparison. -/
def EqualSlice {α : Type} (eq : α → α → Option Bool) :
    Option (List α) → Option (List α) → Option Bool
  | none, none => some true
  | none, some _ => some false
  | some _, none => some false
  | some xs, some ys =>
    if xs.length ≠ ys.length then some false
    else (List.zip xs ys).foldl (EqualStep eq) (some true)

/-- The call `cmp.Equal(x, y, opts...)` on two chairs: exported fields are compared;
unexported fields make it panic (`none`) unless `ignoreChairUnexported` is given. -/
def EqualChair (opts : List CmpOption) (x y : Chair) : Option Bool :=
  if CmpOption.ignoreChairUnexported ∉ opts ∧ (x.unexported ≠ [] ∨ y.unexported ≠ []) then none
  else some (decide (x.exported = y.exported))

/-- The call `cmp.Equal(x, y, opts...)` on two estates: each coordinate is compared
unless its ignore option is given, the further exported fields are compared, and
unexported fields make it panic (`none`) unless `ignoreEstateUnexported` is given. -/
def EqualEstate (opts : List CmpOption) (x y : Estate) : Option Bool :=
  if CmpOption.ignoreEstateUnexported ∉ opts ∧ (x.unexported ≠ [] ∨ y.unexported ≠ []) then none
  else some
    ((decide (CmpOption.ignoreEstateLatitude ∈ opts) || Float64.eq x.Latitude y.Latitude) &&
     (decide (CmpOption.ignoreEstateLongitude ∈ opts) || Float64.eq x.Longitude y.Longitude) &&
     decide (x.exported = y.exported))

/-- The call `cmp.Equal` on two chair search conditions. -/
def EqualChairSearchCondition (_opts : List CmpOption) (x y : ChairSearchCondition) :
    Option Bool :=
  some (decide (x.exported = y.exported))

/-- The call `cmp.Equal` on two estate search conditions. -/
def EqualEstateSearchCondition (_opts : List CmpOption) (x y : EstateSearchCondition) :
    Option Bool :=
  some (decide (x.exported = y.exported))

/-- The call `cmp.Equal` on two chair listings. -/
def EqualChairsResponse (opts : List CmpOption) (x y : ChairsResponse) : Option Bool :=
  match EqualSlice (EqualChair opts) x.Chairs y.Chairs with
  | none => none
  | some b => some (decide (x.exported = y.exported) && b)

/-- The call `cmp.Equal` on two estate listings. -/
def EqualEstatesResponse (opts : List CmpOption) (x y : EstatesResponse) : Option Bool :=
  match EqualSlice (EqualEstate opts) x.Estates y.Estates with
  | none => none
  | some b => some (decide (x.exported = y.exported) && b)

end cmp

/-! ## Strings -/

/-- The loop of `strings.LastIndexByte`: look at positions `n - 1, n - 2, ..., 0`
and return the first one holding `c`, or `-1`. -/
def lastIndexLoop (s : List Char) (c : Char) : Nat → Int
  | 0 => -1
  | n + 1 => if s.get? n = some c then (n : Int) else lastIndexLoop s c n

/-- The call `strings.LastIndex(s, "/")`, which for a one-byte separator is
`strings.LastIndexByte`. A Go string is a byte sequence; the separator is one ASCII
byte, which never occurs inside a multi-byte character, so the characters of the
string are scanned instead. -/
def LastIndex (s : String) (c : Char) : Int :=
  lastIndexLoop s.data c s.data.length

/-- The slice `s[i:]` for an index within bounds. -/
def sliceFrom (s : String) (i : Nat) : String :=
  String.mk (s.data.drop i)

/-- The slice `s[:i]` for an index within bounds. -/
def sliceTo (s : String) (i : Nat) : String :=
  String.mk (s.data.take i)

/-- The digits of a decimal numeral, most significant first; `none` when a character
is not a decimal digit. -/
def parseDigits : List Char → Nat → Option Nat
  | [], acc => some acc
  | ch :: rest, acc =>
    if '0' ≤ ch ∧ ch ≤ '9' then parseDigits rest (acc * 10 + (ch.toNat - '0'.toNat))
    else none

/-- The call `strconv.ParseUint(s, 10, 64)` before the range check: the value of a
non-empty all-digit string. -/
def parseUintDigits (s : List Char) : Option Nat :=
  match s with
  | [] => none
  | _ => parseDigits s 0

/-- The call `strconv.ParseInt(s, 10, 64)`: an optional sign, then at least one
decimal digit; the value must fit a signed 64-bit integer. -/
def ParseInt (s : String) : Except GoError Int :=
  match s.data with
  | [] => .error ⟨"invalid syntax"⟩
  | ch :: rest =>
    let neg := decide (ch = '-')
    let body := if ch = '+' ∨ ch = '-' then rest else ch :: rest
    match parseUintDigits body with
    | none => .error ⟨"invalid syntax"⟩
    | some un =>
      if un ≥ 2 ^ 64 then .error ⟨"value out of range"⟩
      else if !neg && decide (un ≥ 2 ^ 63) then .error ⟨"value out of range"⟩
      else if neg && decide (un > 2 ^ 63) then .error ⟨"value out of range"⟩
      else .ok (if neg then -(un : Int) else (un : Int))

/-! ## The environment of a verifier -/

/-- The file system and the decoders of the standard library, as the verifiers use
them. A decoder into a pointer yields an error, the nil pointer (`none`, for the
text `null`) or a value. -/
structure Codec where
  ReadFile : String → Except GoError String
  unmarshalSnapshot : String → Except GoError (Option Snapshot)
  ParseQuery : String → Values × Option GoError
  unmarshalCoordinates : String → Except GoError (Option Coordinates)
  unmarshalChair : String → Except GoError (Option Chair)
  unmarshalEstate : String → Except GoError (Option Estate)
  unmarshalChairSearchCondition : String → Except GoError (Option ChairSearchCondition)
  unmarshalEstateSearchCondition : String → Except GoError (Option EstateSearchCondition)
  unmarshalChairsResponse : String → Except GoError (Option ChairsResponse)
  unmarshalEstatesResponse : String → Except GoError (Option EstatesResponse)

/-- The live client: each call yields a value pointer and an error. -/
structure Client where
  GetChairDetailFromID : String → Option Chair × Option GoError
  GetChairSearchCondition : Option ChairSearchCondition × Option GoError
  SearchChairsWithQuery : Values → Option ChairsResponse × Option GoError
  GetEstateDetailFromID : String → Option Estate × Option GoError
  GetEstateSearchCondition : Option EstateSearchCondition × Option GoError
  SearchEstatesWithQuery : Values → Option EstatesResponse × Option GoError
  GetLowPricedChair : Option ChairsResponse × Option GoError
  GetLowPricedEstate : Option EstatesResponse × Option GoError
  GetRecommendedEstatesFromChair : Int → Option EstatesResponse × Option GoError
  SearchEstatesNazotte : Option Coordinates → Option EstatesResponse × Option GoError

/-- A call issued to the live client, with its argument. -/
inductive LiveCall where
  | GetChairDetailFromID (id : String)
  | GetChairSearchCondition
  | SearchChairsWithQuery (q : Values)
  | GetEstateDetailFromID (id : String)
  | GetEstateSearchCondition
  | SearchEstatesWithQuery (q : Values)
  | GetLowPricedChair
  | GetLowPricedEstate
  | GetRecommendedEstatesFromChair (id : Int)
  | SearchEstatesNazotte (coordinates : Option Coordinates)
  deriving DecidableEq, Repr

/-- The run of a verifier: the live calls it issued, in order, and how it ended. -/
structure Run where
  calls : List LiveCall
  outcome : Outcome
  deriving DecidableEq, Repr

/-- The function `loadSnapshotFromFile`: read the file, then decode it into a
snapshot pointer. -/
def loadSnapshotFromFile (E : Codec) (filePath : String) : Except GoError (Option Snapshot) :=
  match E.ReadFile filePath with
  | .error err => .error err
  | .ok raw =>
    match E.unmarshalSnapshot raw with
    | .error err => .error err
    | .ok snapshot => .ok snapshot

/-! ## The ten verifiers -/

/-- The function `verifyChairDetail`. -/
def verifyChairDetail (E : Codec) (c : Client) (filePath : String) : Run :=
  match loadSnapshotFromFile E filePath with
  | .error err =>
    ⟨[], .returned (failure.Translate (some err) .ErrBenchmarker "GET /api/chair/id" none)⟩
  | .ok none => ⟨[], .panicked⟩
  | .ok (some snapshot) =>
    -- `err` is the nil error of the successful load
    let err : Option GoError := none
    let idx := LastIndex snapshot.Request.Resource '/'
    if idx = -1 ∨ idx = (snapshot.Request.Resource.data.length : Int) - 1 then
      ⟨[], .returned
        (failure.Translate err .ErrBenchmarker "GET /api/chair/:id" (some filePath))⟩
    else
      let id := sliceFrom snapshot.Request.Resource (idx + 1).toNat
      let (actual, err) := c.GetChairDetailFromID id
      ⟨[.GetChairDetailFromID id],
        if snapshot.Response.StatusCode = StatusOK then
          match err with
          | some e =>
            .returned (failure.Translate (some e) .ErrApplication "GET /api/chair/:id" none)
          | none =>
            match E.unmarshalChair snapshot.Response.Body with
            | .error e =>
              .returned
                (failure.Translate (some e) .ErrBenchmarker "GET /api/chair/:id" (some filePath))
            | .ok expected =>
              match actual with
              | none =>
                .returned (failure.New .ErrApplication "GET /api/chair/:id" (some filePath))
              | some actualV =>
                match expected with
                | none => .panicked
                | some expectedV =>
                  match cmp.EqualChair [.ignoreChairUnexported] expectedV actualV with
                  | none => .panicked
                  | some false =>
                    .returned (failure.New .ErrApplication "GET /api/chair/:id" (some filePath))
                  | some true => .returned none
        else if snapshot.Response.StatusCode = StatusNotFound then
          match actual with
          | some _ => .returned (failure.New .ErrApplication "GET /api/chair/:id" none)
          | none =>
            match err with
            | some e =>
              .returned (failure.Translate (some e) .ErrApplication "GET /api/chair/:id" none)
            | none => .returned none
        else
          match err with
          | none => .returned (failure.New .ErrApplication "GET /api/chair/:id" none)
          | some _ => .returned none⟩

/-- The function `verifyChairSearchCondition`. -/
def verifyChairSearchCondition (E : Codec) (c : Client) (filePath : String) : Run :=
  match loadSnapshotFromFile E filePath with
  | .error err =>
    ⟨[], .returned (failure.Translate (some err) .ErrBenchmarker "GET /api/chair/search/condition" none)⟩
  -- the client is called before the snapshot is first dereferenced
  | .ok none => ⟨[.GetChairSearchCondition], .panicked⟩
  | .ok (some snapshot) =>
    let (actual, err) := c.GetChairSearchCondition
    ⟨[.GetChairSearchCondition],
      if snapshot.Response.StatusCode = StatusOK then
        match err with
        | some e =>
          .returned (failure.Translate (some e) .ErrApplication "GET /api/chair/search/condition" none)
        | none =>
          match E.unmarshalChairSearchCondition snapshot.Response.Body with
          | .error e =>
            .returned (failure.Translate (some e) .ErrBenchmarker "GET /api/chair/search/condition" (some filePath))
          | .ok expected =>
            match expected, actual with
            | some expectedV, some actualV =>
              match cmp.EqualChairSearchCondition [.ignoreChairUnexported] expectedV actualV with
              | none => .panicked
              | some false =>
                .returned (failure.New .ErrApplication "GET /api/chair/search/condition" (some filePath))
              | some true => .returned none
            | _, _ => .panicked
      else
        match err with
        | none => .returned (failure.New .ErrApplication "GET /api/chair/search/condition" none)
        | some _ => .returned none⟩

/-- The function `verifyChairSearch`. -/
def verifyChairSearch (E : Codec) (c : Client) (filePath : String) : Run :=
  match loadSnapshotFromFile E filePath with
  | .error err =>
    ⟨[], .returned (failure.Translate (some err) .ErrBenchmarker "GET /api/chair/search" none)⟩
  | .ok none => ⟨[], .panicked⟩
  | .ok (some snapshot) =>
    match E.ParseQuery snapshot.Request.Query with
    | (_, some err) =>
      ⟨[], .returned (failure.Translate (some err) .ErrBenchmarker "GET /api/chair/search" none)⟩
    | (q, none) =>
      let (actual, err) := c.SearchChairsWithQuery q
      ⟨[.SearchChairsWithQuery q],
        if snapshot.Response.StatusCode = StatusOK then
          match err with
          | some e =>
            .returned (failure.Translate (some e) .ErrApplication "GET /api/chair/search" none)
          | none =>
            match E.unmarshalChairsResponse snapshot.Response.Body with
            | .error e =>
              .returned (failure.Translate (some e) .ErrBenchmarker "GET /api/chair/search" (some filePath))
            | .ok expected =>
              match expected, actual with
              | some expectedV, some actualV =>
                match cmp.EqualChairsResponse [.ignoreChairUnexported] expectedV actualV with
                | none => .panicked
                | some false =>
                  .returned (failure.New .ErrApplication "GET /api/chair/search" (some filePath))
                | some true => .returned none
              | _, _ => .panicked
        else
          match err with
          | none => .returned (failure.New .ErrApplication "GET /api/chair/search" none)
          | some _ => .returned none⟩

/-- The function `verifyEstateDetail`. -/
def verifyEstateDetail (E : Codec) (c : Client) (filePath : String) : Run :=
  match loadSnapshotFromFile E filePath with
  | .error err =>
    ⟨[], .returned (failure.Translate (some err) .ErrBenchmarker "GET /api/estate/id" none)⟩
  | .ok none => ⟨[], .panicked⟩
  | .ok (some snapshot) =>
    -- `err` is the nil error of the successful load
    let err : Option GoError := none
    let idx := LastIndex snapshot.Request.Resource '/'
    if idx = -1 ∨ idx = (snapshot.Request.Resource.data.length : Int) - 1 then
      ⟨[], .returned
        (failure.Translate err .ErrBenchmarker "GET /api/estate/:id" (some filePath))⟩
    else
      let id := sliceFrom snapshot.Request.Resource (idx + 1).toNat
      let (actual, err) := c.GetEstateDetailFromID id
      ⟨[.GetEstateDetailFromID id],
        if snapshot.Response.StatusCode = StatusOK then
          match err with
          | some e =>
            .returned (failure.Translate (some e) .ErrApplication "GET /api/estate/:id" none)
          | none =>
            match E.unmarshalEstate snapshot.Response.Body with
            | .error e =>
              .returned (failure.Translate (some e) .ErrBenchmarker "GET /api/estate/:id" (some filePath))
            | .ok expected =>
              match expected, actual with
              | some expectedV, some actualV =>
                match cmp.EqualEstate [.ignoreEstateUnexported, .ignoreEstateLatitude, .ignoreEstateLongitude] expectedV actualV with
                | none => .panicked
                | some false =>
                  .returned (failure.New .ErrApplication "GET /api/estate/:id" (some filePath))
                | some true => .returned none
              | _, _ => .panicked
        else
          match err with
          | none => .returned (failure.New .ErrApplication "GET /api/estate/:id" none)
          | some _ => .returned none⟩

/-- The function `verifyEstateSearchCondition`. -/
def verifyEstateSearchCondition (E : Codec) (c : Client) (filePath : String) : Run :=
  match loadSnapshotFromFile E filePath with
  | .error err =>
    ⟨[], .returned (failure.Translate (some err) .ErrBenchmarker "GET /api/estate/search/condition" none)⟩
  -- the client is called before the snapshot is first dereferenced
  | .ok none => ⟨[.GetEstateSearchCondition], .panicked⟩
  | .ok (some snapshot) =>
    let (actual, err) := c.GetEstateSearchCondition
    ⟨[.GetEstateSearchCondition],
      if snapshot.Response.StatusCode = StatusOK then
        match err with
        | some e =>
          .returned (failure.Translate (some e) .ErrApplication "GET /api/estate/search/condition" none)
        | none =>
          match E.unmarshalEstateSearchCondition snapshot.Response.Body with
          | .error e =>
            .returned (failure.Translate (some e) .ErrBenchmarker "GET /api/estate/search/condition" (some filePath))
          | .ok expected =>
            match expected, actual with
            | some expectedV, some actualV =>
              match cmp.EqualEstateSearchCondition [] expectedV actualV with
              | none => .panicked
              | some false =>
                .returned (failure.New .ErrApplication "GET /api/estate/search/condition" (some filePath))
              | some true => .returned none
            | _, _ => .panicked
      else
        match err with
        | none => .returned (failure.New .ErrApplication "GET /api/estate/search/condition" none)
        | some _ => .returned none⟩

/-- The function `verifyEstateSearch`. -/
def verifyEstateSearch (E : Codec) (c : Client) (filePath : String) : Run :=
  match loadSnapshotFromFile E filePath with
  | .error err =>
    ⟨[], .returned (failure.Translate (some err) .ErrBenchmarker "GET /api/estate/search" none)⟩
  | .ok none => ⟨[], .panicked⟩
  | .ok (some snapshot) =>
    match E.ParseQuery snapshot.Request.Query with
    | (_, some err) =>
      ⟨[], .returned (failure.Translate (some err) .ErrBenchmarker "GET /api/estate/search" none)⟩
    | (q, none) =>
      let (actual, err) := c.SearchEstatesWithQuery q
      ⟨[.SearchEstatesWithQuery q],
        if snapshot.Response.StatusCode = StatusOK then
          match err with
          | some e =>
            .returned (failure.Translate (some e) .ErrApplication "GET /api/estate/search" none)
          | none =>
            match E.unmarshalEstatesResponse snapshot.Response.Body with
            | .error e =>
              .returned (failure.Translate (some e) .ErrBenchmarker "GET /api/estate/search" (some filePath))
            | .ok expected =>
              match expected, actual with
              | some expectedV, some actualV =>
                match cmp.EqualEstatesResponse [.ignoreEstateUnexported, .ignoreEstateLatitude, .ignoreEstateLongitude] expectedV actualV with
                | none => .panicked
                | some false =>
                  .returned (failure.New .ErrApplication "GET /api/estate/search" (some filePath))
                | some true => .returned none
              | _, _ => .panicked
        else
          match err with
          | none => .returned (failure.New .ErrApplication "GET /api/estate/search" none)
          | some _ => .returned none⟩

/-- The function `verifyLowPricedChair`. -/
def verifyLowPricedChair (E : Codec) (c : Client) (filePath : String) : Run :=
  match loadSnapshotFromFile E filePath with
  | .error err =>
    ⟨[], .returned (failure.Translate (some err) .ErrBenchmarker "GET /api/chair/low_priced" none)⟩
  -- the client is called before the snapshot is first dereferenced
  | .ok none => ⟨[.GetLowPricedChair], .panicked⟩
  | .ok (some snapshot) =>
    let (actual, err) := c.GetLowPricedChair
    ⟨[.GetLowPricedChair],
      if snapshot.Response.StatusCode = StatusOK then
        match err with
        | some e =>
          .returned (failure.Translate (some e) .ErrApplication "GET /api/chair/low_priced" none)
        | none =>
          match E.unmarshalChairsResponse snapshot.Response.Body with
          | .error e =>
            .returned (failure.Translate (some e) .ErrBenchmarker "GET /api/chair/low_priced" (some filePath))
          | .ok expected =>
            match expected, actual with
            | some expectedV, some actualV =>
              match cmp.EqualChairsResponse [.ignoreChairUnexported] expectedV actualV with
              | none => .panicked
              | some false =>
                .returned (failure.New .ErrApplication "GET /api/chair/low_priced" (some filePath))
              | some true => .returned none
            | _, _ => .panicked
      else
        match err with
        | none => .returned (failure.New .ErrApplication "GET /api/chair/low_priced" none)
        | some _ => .returned none⟩

/-- The function `verifyLowPricedEstate`. -/
def verifyLowPricedEstate (E : Codec) (c : Client) (filePath : String) : Run :=
  match loadSnapshotFromFile E filePath with
  | .error err =>
    ⟨[], .returned (failure.Translate (some err) .ErrBenchmarker "GET /api/estate/low_priced" none)⟩
  -- the client is called before the snapshot is first dereferenced
  | .ok none => ⟨[.GetLowPricedEstate], .panicked⟩
  | .ok (some snapshot) =>
    let (actual, err) := c.GetLowPricedEstate
    ⟨[.GetLowPricedEstate],
      if snapshot.Response.StatusCode = StatusOK then
        match err with
        | some e =>
          .returned (failure.Translate (some e) .ErrApplication "GET /api/estate/low_priced" none)
        | none =>
          match E.unmarshalEstatesResponse snapshot.Response.Body with
          | .error e =>
            .returned (failure.Translate (some e) .ErrBenchmarker "GET /api/estate/low_priced" (some filePath))
          | .ok expected =>
            match expected, actual with
            | some expectedV, some actualV =>
              match cmp.EqualEstatesResponse [.ignoreEstateUnexported, .ignoreEstateLatitude, .ignoreEstateLongitude] expectedV actualV with
              | none => .panicked
              | some false =>
                .returned (failure.New .ErrApplication "GET /api/estate/low_priced" (some filePath))
              | some true => .returned none
            | _, _ => .panicked
      else
        match err with
        | none => .returned (failure.New .ErrApplication "GET /api/estate/low_priced" none)
        | some _ => .returned none⟩

/-- The function `verifyRecommendedEstateWithChair`. -/
def verifyRecommendedEstateWithChair (E : Codec) (c : Client) (filePath : String) : Run :=
  match loadSnapshotFromFile E filePath with
  | .error err =>
    ⟨[], .returned (failure.Translate (some err) .ErrBenchmarker "GET /api/recommended_estate/:id" none)⟩
  | .ok none => ⟨[], .panicked⟩
  | .ok (some snapshot) =>
    -- `err` is the nil error of the successful load
    let err : Option GoError := none
    let idx := LastIndex snapshot.Request.Resource '/'
    if idx = -1 ∨ idx = (snapshot.Request.Resource.data.length : Int) - 1 then
      ⟨[], .returned
        (failure.Translate err .ErrBenchmarker "GET /api/recommended_estate/:id" (some filePath))⟩
    else
      match ParseInt (sliceFrom snapshot.Request.Resource (idx + 1).toNat) with
      | .error err =>
        ⟨[], .returned
          (failure.Translate (some err) .ErrBenchmarker "GET /api/recommended_estate/:id" (some filePath))⟩
      | .ok id =>
        let (actual, err) := c.GetRecommendedEstatesFromChair id
        ⟨[.GetRecommendedEstatesFromChair id],
          if snapshot.Response.StatusCode = StatusOK then
            match err with
            | some e =>
              .returned (failure.Translate (some e) .ErrApplication "GET /api/recommended_estate/:id" none)
            | none =>
              match E.unmarshalEstatesResponse snapshot.Response.Body with
              | .error e =>
                .returned (failure.Translate (some e) .ErrBenchmarker "GET /api/recommended_estate/:id" (some filePath))
              | .ok expected =>
                match expected, actual with
                | some expectedV, some actualV =>
                  match cmp.EqualEstatesResponse [.ignoreEstateUnexported, .ignoreEstateLatitude, .ignoreEstateLongitude] expectedV actualV with
                  | none => .panicked
                  | some false =>
                    .returned (failure.New .ErrApplication "GET /api/recommended_estate/:id" (some filePath))
                  | some true => .returned none
                | _, _ => .panicked
          else
            match err with
            | none => .returned (failure.New .ErrApplication "GET /api/recommended_estate/:id" none)
            | some _ => .returned none⟩

/-- The function `verifyEstateNazotte`. -/
def verifyEstateNazotte (E : Codec) (c : Client) (filePath : String) : Run :=
  match loadSnapshotFromFile E filePath with
  | .error err =>
    ⟨[], .returned (failure.Translate (some err) .ErrBenchmarker "POST /api/estate/nazotte" none)⟩
  | .ok none => ⟨[], .panicked⟩
  | .ok (some snapshot) =>
    match E.unmarshalCoordinates snapshot.Request.Body with
    | .error err =>
      ⟨[], .returned (failure.Translate (some err) .ErrBenchmarker "POST /api/estate/nazotte" none)⟩
    | .ok coordinates =>
      let (actual, err) := c.SearchEstatesNazotte coordinates
      ⟨[.SearchEstatesNazotte coordinates],
        if snapshot.Response.StatusCode = StatusOK then
          match err with
          | some e =>
            .returned (failure.Translate (some e) .ErrApplication "POST /api/estate/nazotte" none)
          | none =>
            match E.unmarshalEstatesResponse snapshot.Response.Body with
            | .error e =>
              .returned (failure.Translate (some e) .ErrBenchmarker "POST /api/estate/nazotte" (some filePath))
            | .ok expected =>
              match expected, actual with
              | some expectedV, some actualV =>
                match cmp.EqualEstatesResponse [.ignoreEstateUnexported, .ignoreEstateLatitude, .ignoreEstateLongitude] expectedV actualV with
                | none => .panicked
                | some false =>
                  .returned (failure.New .ErrApplication "POST /api/estate/nazotte" (some filePath))
                | some true => .returned none
              | _, _ => .panicked
        else
          match err with
          | none => .returned (failure.New .ErrApplication "POST /api/estate/nazotte" none)
          | some _ => .returned none⟩

/-! ## The categories and what a claim says about all of them -/

/-- The ten snapshot categories, in the order `verifyWithSnapshot` processes them. -/
inductive Category where
  | chair_detail
  | chair_search_condition
  | chair_search
  | estate_detail
  | estate_search_condition
  | estate_search
  | chair_low_priced
  | estate_low_priced
  | recommended_estate_with_chair
  | estate_nazotte
  deriving DecidableEq, Repr

/-- The verifier `verifyWithSnapshot` runs on the files of a category. -/
def Category.verifier : Category → Codec → Client → String → Run
  | .chair_detail => verifyChairDetail
  | .chair_search_condition => verifyChairSearchCondition
  | .chair_search => verifyChairSearch
  | .estate_detail => verifyEstateDetail
  | .estate_search_condition => verifyEstateSearchCondition
  | .estate_search => verifyEstateSearch
  | .chair_low_priced => verifyLowPricedChair
  | .estate_low_priced => verifyLowPricedEstate
  | .recommended_estate_with_chair => verifyRecommendedEstateWithChair
  | .estate_nazotte => verifyEstateNazotte

/-- The detail-lookup categories: the verifier takes an identifier from the path. -/
def Category.isDetail : Category → Bool
  | .chair_detail => true
  | .estate_detail => true
  | .recommended_estate_with_chair => true
  | _ => false

/-- The estate-valued categories: the live value is an estate or a list of estates. -/
def Category.isEstateValued : Category → Bool
  | .estate_detail => true
  | .estate_search => true
  | .estate_low_priced => true
  | .recommended_estate_with_chair => true
  | .estate_nazotte => true
  | _ => false

/-- The path check of the detail verifiers fails: no `/`, or `/` is the last byte. -/
def pathCheckFails (resource : String) : Prop :=
  LastIndex resource '/' = -1 ∨ LastIndex resource '/' = (resource.data.length : Int) - 1

instance (resource : String) : Decidable (pathCheckFails resource) := by
  unfold pathCheckFails; infer_instance

/-- The identifier slice `resource[idx+1:]` of the detail verifiers. -/
def identifier (resource : String) : String :=
  sliceFrom resource (LastIndex resource '/' + 1).toNat

/-- The live call the recorded request of a category stands for; `none` when the
request does not decode (path check, integer, query or coordinates). -/
def decodeRequest (E : Codec) : Category → Request → Option LiveCall
  | .chair_detail, r =>
    if pathCheckFails r.Resource then none
    else some (.GetChairDetailFromID (identifier r.Resource))
  | .chair_search_condition, _ => some .GetChairSearchCondition
  | .chair_search, r =>
    match E.ParseQuery r.Query with
    | (_, some _) => none
    | (q, none) => some (.SearchChairsWithQuery q)
  | .estate_detail, r =>
    if pathCheckFails r.Resource then none
    else some (.GetEstateDetailFromID (identifier r.Resource))
  | .estate_search_condition, _ => some .GetEstateSearchCondition
  | .estate_search, r =>
    match E.ParseQuery r.Query with
    | (_, some _) => none
    | (q, none) => some (.SearchEstatesWithQuery q)
  | .chair_low_priced, _ => some .GetLowPricedChair
  | .estate_low_priced, _ => some .GetLowPricedEstate
  | .recommended_estate_with_chair, r =>
    if pathCheckFails r.Resource then none
    else match ParseInt (identifier r.Resource) with
      | .error _ => none
      | .ok id => some (.GetRecommendedEstatesFromChair id)
  | .estate_nazotte, r =>
    match E.unmarshalCoordinates r.Body with
    | .error _ => none
    | .ok coordinates => some (.SearchEstatesNazotte coordinates)

/-- A decoded domain value of any of the six response types. -/
inductive Value where
  | chair (v : Chair)
  | chairSearchCondition (v : ChairSearchCondition)
  | chairs (v : ChairsResponse)
  | estate (v : Estate)
  | estateSearchCondition (v : EstateSearchCondition)
  | estates (v : EstatesResponse)
  deriving DecidableEq, Repr

/-- What the client answers to a live call: the value pointer and the error. -/
def Client.answer (c : Client) : LiveCall → Option Value × Option GoError
  | .GetChairDetailFromID id =>
    ((c.GetChairDetailFromID id).1.map .chair, (c.GetChairDetailFromID id).2)
  | .GetChairSearchCondition =>
    (c.GetChairSearchCondition.1.map .chairSearchCondition, c.GetChairSearchCondition.2)
  | .SearchChairsWithQuery q =>
    ((c.SearchChairsWithQuery q).1.map .chairs, (c.SearchChairsWithQuery q).2)
  | .GetEstateDetailFromID id =>
    ((c.GetEstateDetailFromID id).1.map .estate, (c.GetEstateDetailFromID id).2)
  | .GetEstateSearchCondition =>
    (c.GetEstateSearchCondition.1.map .estateSearchCondition, c.GetEstateSearchCondition.2)
  | .SearchEstatesWithQuery q =>
    ((c.SearchEstatesWithQuery q).1.map .estates, (c.SearchEstatesWithQuery q).2)
  | .GetLowPricedChair => (c.GetLowPricedChair.1.map .chairs, c.GetLowPricedChair.2)
  | .GetLowPricedEstate => (c.GetLowPricedEstate.1.map .estates, c.GetLowPricedEstate.2)
  | .GetRecommendedEstatesFromChair id =>
    ((c.GetRecommendedEstatesFromChair id).1.map .estates,
      (c.GetRecommendedEstatesFromChair id).2)
  | .SearchEstatesNazotte co =>
    ((c.SearchEstatesNazotte co).1.map .estates, (c.SearchEstatesNazotte co).2)

/-- The decoding of a recorded response body into the domain type of a category. -/
def decodeExpected (E : Codec) : Category → String → Except GoError (Option Value)
  | .chair_detail, b => (E.unmarshalChair b).map (Option.map .chair)
  | .chair_search_condition, b =>
    (E.unmarshalChairSearchCondition b).map (Option.map .chairSearchCondition)
  | .chair_search, b => (E.unmarshalChairsResponse b).map (Option.map .chairs)
  | .estate_detail, b => (E.unmarshalEstate b).map (Option.map .estate)
  | .estate_search_condition, b =>
    (E.unmarshalEstateSearchCondition b).map (Option.map .estateSearchCondition)
  | .estate_search, b => (E.unmarshalEstatesResponse b).map (Option.map .estates)
  | .chair_low_priced, b => (E.unmarshalChairsResponse b).map (Option.map .chairs)
  | .estate_low_priced, b => (E.unmarshalEstatesResponse b).map (Option.map .estates)
  | .recommended_estate_with_chair, b =>
    (E.unmarshalEstatesResponse b).map (Option.map .estates)
  | .estate_nazotte, b => (E.unmarshalEstatesResponse b).map (Option.map .estates)

/-- Two slices agree: both nil, or both non-nil and related element by element. -/
def sliceAgrees {α : Type} (R : α → α → Prop) : Option (List α) → Option (List α) → Prop
  | none, none => True
  | some xs, some ys => List.Forall₂ R xs ys
  | _, _ => False

/-- Structural equality of two chairs apart from the unexported fields. -/
def Chair.sameExported (x y : Chair) : Prop := x.exported = y.exported

/-- Structural equality of two estates apart from the ignored fields: the unexported
fields, `Latitude` and `Longitude`. -/
def Estate.sameNonIgnored (x y : Estate) : Prop := x.exported = y.exported

/-- Structural equality of two domain values under the ignore rules of their type:
unexported fields of chairs and estates, and the coordinates of estates, do not
count; everything else does, at every position. -/
def Value.equalModuloIgnored : Value → Value → Prop
  | .chair x, .chair y => x.sameExported y
  | .chairSearchCondition x, .chairSearchCondition y => x.exported = y.exported
  | .chairs x, .chairs y =>
    x.exported = y.exported ∧ sliceAgrees Chair.sameExported x.Chairs y.Chairs
  | .estate x, .estate y => x.sameNonIgnored y
  | .estateSearchCondition x, .estateSearchCondition y => x.exported = y.exported
  | .estates x, .estates y =>
    x.exported = y.exported ∧ sliceAgrees Estate.sameNonIgnored x.Estates y.Estates
  | _, _ => False

/-- Two estates differ at most in `Latitude` and `Longitude`. -/
def Estate.differsOnlyInCoordinates (x y : Estate) : Prop :=
  x.exported = y.exported ∧ x.unexported = y.unexported

/-- Two estate-valued values differ at most in the `Latitude` and `Longitude` of
estates, at any position. -/
def Value.differsOnlyInCoordinates : Value → Value → Prop
  | .estate x, .estate y => x.differsOnlyInCoordinates y
  | .estates x, .estates y =>
    x.exported = y.exported ∧ sliceAgrees Estate.differsOnlyInCoordinates x.Estates y.Estates
  | _, _ => False

/-- The outcome is one failure of the given code. -/
def Outcome.isFailureOf (o : Outcome) (code : Code) : Prop :=
  ∃ f : Failure, o = .returned (some f) ∧ f.code = code

/-- The outcome is a normal return without failure. -/
def Outcome.isSuccess (o : Outcome) : Prop := o = .returned none

/-- A failure before the live call: the snapshot file does not load or decode; or the
recorded query does not parse (the two search verifiers); or the recorded request
body does not decode into coordinates (the polygon search); or the trailing path
segment is not a base-10 64-bit integer (the recommended-estate verifier). -/
def failsBeforeLiveCall (E : Codec) (k : Category) (filePath : String) : Prop :=
  (∃ e, loadSnapshotFromFile E filePath = .error e) ∨
  ∃ snapshot, loadSnapshotFromFile E filePath = .ok (some snapshot) ∧
    (((k = .chair_search ∨ k = .estate_search) ∧
        ∃ e, (E.ParseQuery snapshot.Request.Query).2 = some e) ∨
     (k = .estate_nazotte ∧ ∃ e, E.unmarshalCoordinates snapshot.Request.Body = .error e) ∨
     (k = .recommended_estate_with_chair ∧ ¬ pathCheckFails snapshot.Request.Resource ∧
        ∃ e, ParseInt (identifier snapshot.Request.Resource) = .error e))

/-! ## The orchestrator -/

def NumOfVerifyChairDetail : Nat := 5
def NumOfVerifyChairSearchCondition : Nat := 1
def NumOfVerifyChairSearch : Nat := 5
def NumOfVerifyEstateDetail : Nat := 5
def NumOfVerifyEstateSearchCondition : Nat := 1
def NumOfVerifyEstateSearch : Nat := 5
def NumOfVerifyLowPricedChair : Nat := 1
def NumOfVerifyLowPricedEstate : Nat := 1
def NumOfVerifyRecommendedEstateWithChair : Nat := 5
def NumOfVerifyEstateNazotte : Nat := 5

/-- The configured number of tasks of a category. -/
def Category.numOfVerify : Category → Nat
  | .chair_detail => NumOfVerifyChairDetail
  | .chair_search_condition => NumOfVerifyChairSearchCondition
  | .chair_search => NumOfVerifyChairSearch
  | .estate_detail => NumOfVerifyEstateDetail
  | .estate_search_condition => NumOfVerifyEstateSearchCondition
  | .estate_search => NumOfVerifyEstateSearch
  | .chair_low_priced => NumOfVerifyLowPricedChair
  | .estate_low_priced => NumOfVerifyLowPricedEstate
  | .recommended_estate_with_chair => NumOfVerifyRecommendedEstateWithChair
  | .estate_nazotte => NumOfVerifyEstateNazotte

/-- The directory of a category below the snapshots directory. -/
def Category.dirName : Category → String
  | .chair_detail => "chair_detail"
  | .chair_search_condition => "chair_search_condition"
  | .chair_search => "chair_search"
  | .estate_detail => "estate_detail"
  | .estate_search_condition => "estate_search_condition"
  | .estate_search => "estate_search"
  | .chair_low_priced => "chair_low_priced"
  | .estate_low_priced => "estate_low_priced"
  | .recommended_estate_with_chair => "recommended_estate_with_chair"
  | .estate_nazotte => "estate_nazotte"

/-- The endpoint named in the failure messages of a category. -/
def Category.message : Category → String
  | .chair_detail => "GET /api/chair/:id"
  | .chair_search_condition => "GET /api/chair/search/condition"
  | .chair_search => "GET /api/chair/search"
  | .estate_detail => "GET /api/estate/:id"
  | .estate_search_condition => "GET /api/estate/search/condition"
  | .estate_search => "GET /api/estate/search"
  | .chair_low_priced => "GET /api/chair/low_priced"
  | .estate_low_priced => "GET /api/estate/low_priced"
  | .recommended_estate_with_chair => "GET /api/recommended_estate/:id"
  | .estate_nazotte => "POST /api/estate/nazotte"

/-- The directory listing, the joining of paths, and the random source, as
`verifyWithSnapshot` uses them. `raw i` is the value behind the `i`-th call of
`rand.Intn`. -/
structure World where
  ReadDir : String → Except GoError (List String)
  Join : String → String → String
  raw : Nat → Nat

/-- The call `rand.Intn(n)` on the raw value behind it: a panic (`none`) when
`n ≤ 0`, else a number in `[0, n)`. -/
def Intn (raw : Nat) (n : Nat) : Option Nat :=
  if n = 0 then none else some (raw % n)

/-- A launched verification task: the verifier of a category on one file. -/
structure Task where
  category : Category
  filePath : String
  deriving DecidableEq, Repr

namespace fails

/-- Modelled from the spec: `fails.Add` of package `bench/fails`, which is not part
of the sources at hand. The collector is an append-only sequence of records. -/
def Add (err : Failure) (collector : List Failure) : List Failure :=
  collector ++ [err]

end fails

/-- The state of a run of `verifyWithSnapshot`: the records it added itself, the
tasks it launched, the number of random draws so far, and whether it panicked. -/
structure Orchestration where
  added : List Failure
  launched : List Task
  draws : Nat
  panicked : Bool
  deriving DecidableEq, Repr

/-- The launching loop of one category, with `n` iterations to go: draw an index,
launch the verifier on the file at that index. -/
def launchLoop (W : World) (k : Category) (dir : String) (snapshots : List String) :
    Nat → Orchestration → Orchestration
  | 0, st => st
  | n + 1, st =>
    match Intn (W.raw st.draws) snapshots.length with
    | none => { st with panicked := true }
    | some r =>
      match snapshots.get? r with
      | none => { st with draws := st.draws + 1, panicked := true }
      | some name =>
        launchLoop W k dir snapshots n
          { st with launched := st.launched ++ [⟨k, W.Join dir name⟩], draws := st.draws + 1 }

/-- The block of `verifyWithSnapshot` for one category: list the directory; on a
listing error add one record, else launch the configured number of tasks. After a
panic nothing runs any more. -/
def verifyCategory (W : World) (parent : String) (k : Category) (st : Orchestration) :
    Orchestration :=
  if st.panicked then st
  else
    let snapshotsDirPath := W.Join parent k.dirName
    match W.ReadDir snapshotsDirPath with
    | .error err =>
      match failure.Translate (some err) .ErrBenchmarker k.message none with
      | some f => { st with added := fails.Add f st.added }
      | none => st
    | .ok snapshots => launchLoop W k snapshotsDirPath snapshots k.numOfVerify st

/-- The function `verifyWithSnapshot`, up to the final wait: the ten blocks in the
declared order. -/
def verifyWithSnapshot (W : World) (snapshotsParentsDirPath : String) : Orchestration :=
  let st : Orchestration := { added := [], launched := [], draws := 0, panicked := false }
  let st := verifyCategory W snapshotsParentsDirPath .chair_detail st
  let st := verifyCategory W snapshotsParentsDirPath .chair_search_condition st
  let st := verifyCategory W snapshotsParentsDirPath .chair_search st
  let st := verifyCategory W snapshotsParentsDirPath .estate_detail st
  let st := verifyCategory W snapshotsParentsDirPath .estate_search_condition st
  let st := verifyCategory W snapshotsParentsDirPath .estate_search st
  let st := verifyCategory W snapshotsParentsDirPath .chair_low_priced st
  let st := verifyCategory W snapshotsParentsDirPath .estate_low_priced st
  let st := verifyCategory W snapshotsParentsDirPath .recommended_estate_with_chair st
  verifyCategory W snapshotsParentsDirPath .estate_nazotte st

/-- The body of a launched task: run the verifier. -/
def Task.run (E : Codec) (c : Client) (t : Task) : Run :=
  t.category.verifier E c t.filePath

/-- An example world: the directories whose path is in `failing` cannot be listed, those
whose path is in `empty` list no file, every other directory lists `a.json` and `b.json`. -/
def demoWorld (failing empty : List String) : World where
  ReadDir := fun d =>
    if d ∈ failing then .error ⟨"no such directory"⟩
    else if d ∈ empty then .ok [] else .ok ["a.json", "b.json"]
  Join := fun a b => a ++ "/" ++ b
  raw := fun i => i

/-! ## The collector during a run -/

/-- The ten categories in the order `verifyWithSnapshot` processes them. -/
def Category.all : List Category :=
  [.chair_detail, .chair_search_condition, .chair_search, .estate_detail,
   .estate_search_condition, .estate_search, .chair_low_priced, .estate_low_priced,
   .recommended_estate_with_chair, .estate_nazotte]

/-- The listing of the directory of a category fails. -/
def listingFails (W : World) (parent : String) (k : Category) : Bool :=
  match W.ReadDir (W.Join parent k.dirName) with
  | .error _ => true
  | .ok _ => false

/-- The record `verifyWithSnapshot` adds when the listing of a category fails with
`err`. -/
def listingFailure (k : Category) (err : GoError) : Failure :=
  { code := .ErrBenchmarker, message := k.message, snapshot := none, cause := some err }

/-- The body of the goroutine of a launched task, as an update of the collector: run
the verifier and add its error when it is not nil. The goroutine has no `recover`:
when the verifier panics the process crashes, which is `none`. -/
def Task.body (E : Codec) (c : Client) (t : Task) (collector : List Failure) :
    Option (List Failure) :=
  match (t.run E c).outcome with
  | .returned (some err) => some (fails.Add err collector)
  | .returned none => some collector
  | .panicked => none

/-- The verifier of a launched task returns a failure. -/
def Task.returnsFailure (E : Codec) (c : Client) (t : Task) : Bool :=
  match (t.run E c).outcome with
  | .returned (some _) => true
  | _ => false

/-- The verifier of a launched task panics. -/
def Task.panics (E : Codec) (c : Client) (t : Task) : Bool :=
  match (t.run E c).outcome with
  | .panicked => true
  | _ => false

/-- The failure the verifier of a launched task returns, as a list: empty when it
returns nil or panics. -/
def Task.failures (E : Codec) (c : Client) (t : Task) : List Failure :=
  match (t.run E c).outcome with
  | .returned (some err) => [err]
  | _ => []

/-- What touches the collector during a run: the call of `fails.Add` by
`verifyWithSnapshot` itself after a listing error, and the body of a launched
task. Each happens atomically. -/
inductive Event where
  | listing (err : Failure)
  | task (t : Task)
  deriving DecidableEq, Repr

/-- The update of the collector by one event; `none` when the process crashes. -/
def Event.apply (E : Codec) (c : Client) : Event → List Failure → Option (List Failure)
  | .listing err, collector => some (fails.Add err collector)
  | .task t, collector => t.body E c collector

/-- The records an event hands to the collector. -/
def Event.records (E : Codec) (c : Client) : Event → List Failure
  | .listing err => [err]
  | .task t => t.failures E c

/-- The event crashes the process. -/
def Event.crashes (E : Codec) (c : Client) : Event → Bool
  | .listing _ => false
  | .task t => t.panics E c

/-- One step of a schedule: the next event updates the collector; after a crash
nothing happens any more. -/
def collectStep (E : Codec) (c : Client) (collector : Option (List Failure)) (ev : Event) :
    Option (List Failure) :=
  match collector with
  | none => none
  | some records => ev.apply E c records

/-- The collector after the events of a schedule have happened in that order,
starting from the empty collector; `none` when the process crashed on the way. -/
def collect (E : Codec) (c : Client) (schedule : List Event) : Option (List Failure) :=
  schedule.foldl (collectStep E c) (some [])

/-- The events of a run: one per record `verifyWithSnapshot` added itself and one per
launched task. The goroutines run concurrently, so a schedule of the run is any
ordering of these events. -/
def Orchestration.events (st : Orchestration) : List Event :=
  st.added.map .listing ++ st.launched.map .task

/-- The failures the verifiers of the launched tasks of a run return. -/
def Orchestration.taskFailures (E : Codec) (c : Client) (st : Orchestration) : List Failure :=
  st.launched.flatMap (fun t => t.failures E c)

/-- The categories whose listing failed during a run: walking the blocks of the
categories `ks` in order from the state `st`, those whose block is reached without a
panic before it and whose directory cannot be listed. -/
def failedListings (W : World) (parent : String) : List Category → Orchestration → List Category
  | [], _ => []
  | k :: ks, st =>
    (if st.panicked = false ∧ listingFails W parent k = true then [k] else []) ++
      failedListings W parent ks (verifyCategory W parent k st)

/-- The state in which `verifyWithSnapshot` starts. -/
def Orchestration.start : Orchestration :=
  { added := [], launched := [], draws := 0, panicked := false }

/-- The blocks of the categories `ks`, one after the other, from the state `st`. -/
def runBlocks (W : World) (parent : String) (ks : List Category) (st : Orchestration) :
    Orchestration :=
  ks.foldl (fun st k => verifyCategory W parent k st) st

/-- The number of tasks of category `j` among the tasks `ts`. -/
def countOf (j : Category) (ts : List Task) : Nat :=
  (ts.filter (fun t => decide (t.category = j))).length

/-- Two states of a run agree apart from category `k`: both have panicked or neither
has, they hold the same number of launched tasks of every category other than `k`,
and their records are `P` and `P2` followed by the same later records. -/
def agreeApartFrom (k : Category) (P P2 : List Failure) (st st2 : Orchestration) : Prop :=
  st.panicked = st2.panicked ∧
  (∀ j, j ≠ k → countOf j st.launched = countOf j st2.launched) ∧
  ∃ later, st.added = P ++ later ∧ st2.added = P2 ++ later

/-- The collector when `verifyWithSnapshot` returns from its final wait, for a
schedule of the events of the run; `none` when it does not return, because the run
panicked or the verifier of a launched task panicked. -/
def collectorAfterRun (W : World) (parent : String) (E : Codec) (c : Client)
    (schedule : List Event) : Option (List Failure) :=
  if (verifyWithSnapshot W parent).panicked = true then none else collect E c schedule

/-! ## The common shape of the verifiers -/

/-- The call `cmp.Equal` a verifier makes on two values, with the options the source
passes for their type. -/
def cmpEqual : Value → Value → Option Bool
  | .chair x, .chair y => cmp.EqualChair [.ignoreChairUnexported] x y
  | .chairSearchCondition x, .chairSearchCondition y =>
    cmp.EqualChairSearchCondition [.ignoreChairUnexported] x y
  | .chairs x, .chairs y => cmp.EqualChairsResponse [.ignoreChairUnexported] x y
  | .estate x, .estate y =>
    cmp.EqualEstate [.ignoreEstateUnexported, .ignoreEstateLatitude, .ignoreEstateLongitude] x y
  | .estateSearchCondition x, .estateSearchCondition y =>
    cmp.EqualEstateSearchCondition [] x y
  | .estates x, .estates y =>
    cmp.EqualEstatesResponse
      [.ignoreEstateUnexported, .ignoreEstateLatitude, .ignoreEstateLongitude] x y
  | _, _ => some false

/-- The branch every verifier takes after its live call, as a function of the
recorded status code, the decoding of the recorded body, and the live answer. Only
`verifyChairDetail` tests the live value for nil and has a branch for status 404. -/
def judge (k : Category) (filePath : String) (status : Int)
    (expected : Except GoError (Option Value)) (actual : Option Value)
    (err : Option GoError) : Outcome :=
  if status = StatusOK then
    match err with
    | some e => .returned (failure.Translate (some e) .ErrApplication k.message none)
    | none =>
      match expected with
      | .error e =>
        .returned (failure.Translate (some e) .ErrBenchmarker k.message (some filePath))
      | .ok expectedP =>
        if k = .chair_detail ∧ actual = none then
          .returned (failure.New .ErrApplication k.message (some filePath))
        else
          match expectedP, actual with
          | some x, some y =>
            match cmpEqual x y with
            | none => .panicked
            | some false => .returned (failure.New .ErrApplication k.message (some filePath))
            | some true => .returned none
          | _, _ => .panicked
  else if k = .chair_detail ∧ status = StatusNotFound then
    match actual with
    | some _ => .returned (failure.New .ErrApplication k.message none)
    | none =>
      match err with
      | some e => .returned (failure.Translate (some e) .ErrApplication k.message none)
      | none => .returned none
  else
    match err with
    | none => .returned (failure.New .ErrApplication k.message none)
    | some _ => .returned none

/-! ## Concrete environments for the examples -/

/-- An example chair. -/
def chairA : Chair := { exported := [("id", "1"), ("name", "stool")], unexported := [("stock", "3")] }

/-- An example estate. -/
def estateA : Estate :=
  { Latitude := ⟨1⟩, Longitude := ⟨2⟩, exported := [("id", "1")], unexported := [("popularity", "7")] }

/-- The example estate at other coordinates. -/
def estateB : Estate :=
  { Latitude := ⟨5⟩, Longitude := ⟨6⟩, exported := [("id", "1")], unexported := [("popularity", "7")] }

/-- An example codec: every file but `missing` is read and decodes to `snapshot`; the
query `%` does not parse; the body `not json` does not decode, the body `null` decodes to
the nil pointer, and every other body decodes to a fixed value. -/
def demoCodec (snapshot : Option Snapshot) : Codec where
  ReadFile := fun p => if p = "missing" then .error ⟨"no such file"⟩ else .ok p
  unmarshalSnapshot := fun _ => .ok snapshot
  ParseQuery := fun q => if q = "%" then ([], some ⟨"invalid URL escape"⟩) else ([(q, [])], none)
  unmarshalCoordinates := fun b =>
    if b = "not json" then .error ⟨"unexpected end of JSON input"⟩
    else if b = "null" then .ok none else .ok (some ⟨[]⟩)
  unmarshalChair := fun b =>
    if b = "not json" then .error ⟨"unexpected end of JSON input"⟩
    else if b = "null" then .ok none else .ok (some chairA)
  unmarshalEstate := fun b =>
    if b = "not json" then .error ⟨"unexpected end of JSON input"⟩
    else if b = "null" then .ok none else .ok (some estateA)
  unmarshalChairSearchCondition := fun b =>
    if b = "not json" then .error ⟨"unexpected end of JSON input"⟩
    else if b = "null" then .ok none else .ok (some ⟨[]⟩)
  unmarshalEstateSearchCondition := fun b =>
    if b = "not json" then .error ⟨"unexpected end of JSON input"⟩
    else if b = "null" then .ok none else .ok (some ⟨[]⟩)
  unmarshalChairsResponse := fun b =>
    if b = "not json" then .error ⟨"unexpected end of JSON input"⟩
    else if b = "null" then .ok none else .ok (some ⟨[], some [chairA]⟩)
  unmarshalEstatesResponse := fun b =>
    if b = "not json" then .error ⟨"unexpected end of JSON input"⟩
    else if b = "null" then .ok none else .ok (some ⟨[], some [estateA]⟩)

/-- An example client: detail lookups answer `chair` and `estate`, every listing call
answers `estates` or a one-chair listing, and every call carries the error `err`. -/
def demoClient (chair : Option Chair) (estate : Option Estate)
    (estates : Option EstatesResponse) (err : Option GoError) : Client where
  GetChairDetailFromID := fun _ => (chair, err)
  GetChairSearchCondition := (some ⟨[]⟩, err)
  SearchChairsWithQuery := fun _ => (some ⟨[], some [chairA]⟩, err)
  GetEstateDetailFromID := fun _ => (estate, err)
  GetEstateSearchCondition := (some ⟨[]⟩, err)
  SearchEstatesWithQuery := fun _ => (estates, err)
  GetLowPricedChair := (some ⟨[], some [chairA]⟩, err)
  GetLowPricedEstate := (estates, err)
  GetRecommendedEstatesFromChair := fun _ => (estates, err)
  SearchEstatesNazotte := fun _ => (estates, err)

/-- An example snapshot of the given resource path, status code and response body. -/
def demoSnapshot (resource : String) (status : Int) (body : String) : Snapshot :=
  { Request := { Method := "GET", Resource := resource, Query := "", Body := "" },
    Response := { StatusCode := status, Body := body } }

/-- An example codec that decodes by file: the file `snap/chair_detail/a.json` holds a
snapshot with recorded status 200 and every other file one with recorded status 500,
both of path `/api/chair/1`; bodies decode as in `demoCodec`. -/
def demoCodecByFile : Codec :=
  { demoCodec none with
    unmarshalSnapshot := fun raw =>
      if raw = "snap/chair_detail/a.json" then .ok (some (demoSnapshot "/api/chair/1" 200 "x"))
      else .ok (some (demoSnapshot "/api/chair/1" 500 "x")) }

/-- An example world in which only the directories `chair_detail` and
`chair_search_condition` can be listed, each with the files `a.json` and `b.json`. -/
def demoWorldTwo : World :=
  demoWorld ["snap/chair_search", "snap/estate_detail", "snap/estate_search_condition",
    "snap/estate_search", "snap/chair_low_priced", "snap/estate_low_priced",
    "snap/recommended_estate_with_chair", "snap/estate_nazotte"] []

/-! ## Lemmas on the comparison -/

theorem foldl_zip_some {α : Type} (eq : α → α → Option Bool) (r : α → α → Bool)
    (hr : ∀ x y, eq x y = some (r x y)) (xs ys : List α) (acc : Bool) :
    (List.zip xs ys).foldl (cmp.EqualStep eq) (some acc)
      = some (acc && (List.zip xs ys).all (fun p => r p.1 p.2)) := by
  induction xs generalizing ys acc with
  | nil => simp
  | cons x xs ih =>
    cases ys with
    | nil => simp
    | cons y ys =>
      simp only [List.zip_cons_cons, List.foldl_cons, List.all_cons]
      have hstep : cmp.EqualStep eq (some acc) (x, y) = some (acc && r x y) := by
        simp [cmp.EqualStep, hr]
      rw [hstep, ih]
      simp [Bool.and_assoc]

theorem forall₂_iff_zip_all {α : Type} (r : α → α → Bool) (xs ys : List α)
    (hlen : xs.length = ys.length) :
    List.Forall₂ (fun x y => r x y = true) xs ys ↔
      (List.zip xs ys).all (fun p => r p.1 p.2) = true := by
  induction xs generalizing ys with
  | nil =>
    cases ys with
    | nil => simp
    | cons y ys => simp at hlen
  | cons x xs ih =>
    cases ys with
    | nil => simp at hlen
    | cons y ys =>
      simp only [List.length_cons, Nat.add_right_cancel_iff] at hlen
      simp [List.forall₂_cons, ih ys hlen]

theorem EqualSlice_spec {α : Type} (eq : α → α → Option Bool) (r : α → α → Bool)
    (hr : ∀ x y, eq x y = some (r x y)) (xs ys : Option (List α)) :
    ∃ b, cmp.EqualSlice eq xs ys = some b ∧
      (b = true ↔ sliceAgrees (fun x y => r x y = true) xs ys) := by
  cases xs with
  | none => cases ys <;> simp [cmp.EqualSlice, sliceAgrees]
  | some xs =>
    cases ys with
    | none => simp [cmp.EqualSlice, sliceAgrees]
    | some ys =>
      simp only [cmp.EqualSlice, sliceAgrees]
      by_cases hlen : xs.length = ys.length
      · rw [if_neg (by simpa using hlen), foldl_zip_some eq r hr]
        refine ⟨_, rfl, ?_⟩
        rw [forall₂_iff_zip_all r xs ys hlen]
        simp
      · rw [if_pos hlen]
        refine ⟨false, rfl, ?_⟩
        constructor
        · intro h; cases h
        · intro h; exact absurd h.length_eq hlen

theorem EqualChair_ignore (x y : Chair) :
    cmp.EqualChair [.ignoreChairUnexported] x y = some (decide (x.exported = y.exported)) := by
  simp [cmp.EqualChair]

theorem EqualEstate_ignore (x y : Estate) :
    cmp.EqualEstate [.ignoreEstateUnexported, .ignoreEstateLatitude, .ignoreEstateLongitude] x y
      = some (decide (x.exported = y.exported)) := by
  simp [cmp.EqualEstate]

/-- The comparison a verifier makes never panics, and it succeeds exactly when the two
values are structurally equal under the ignore rules of their type. -/
theorem cmpEqual_spec (x y : Value) :
    ∃ b, cmpEqual x y = some b ∧ (b = true ↔ x.equalModuloIgnored y) := by
  cases x <;> cases y <;>
    simp only [cmpEqual, Value.equalModuloIgnored, Option.some.injEq, exists_eq_left',
      Bool.false_eq_true]
  case chair.chair x y =>
    simp [EqualChair_ignore, Chair.sameExported]
  case chairSearchCondition.chairSearchCondition x y =>
    simp [cmp.EqualChairSearchCondition]
  case chairs.chairs x y =>
    obtain ⟨b, hb, hiff⟩ := EqualSlice_spec (cmp.EqualChair [.ignoreChairUnexported])
      (fun x y => decide (x.exported = y.exported)) EqualChair_ignore x.Chairs y.Chairs
    simp only [decide_eq_true_eq] at hiff
    change (b = true ↔ sliceAgrees Chair.sameExported x.Chairs y.Chairs) at hiff
    simp [cmp.EqualChairsResponse, hb, hiff]
  case estate.estate x y =>
    simp [EqualEstate_ignore, Estate.sameNonIgnored]
  case estateSearchCondition.estateSearchCondition x y =>
    simp [cmp.EqualEstateSearchCondition]
  case estates.estates x y =>
    obtain ⟨b, hb, hiff⟩ := EqualSlice_spec
      (cmp.EqualEstate [.ignoreEstateUnexported, .ignoreEstateLatitude, .ignoreEstateLongitude])
      (fun x y => decide (x.exported = y.exported)) EqualEstate_ignore x.Estates y.Estates
    simp only [decide_eq_true_eq] at hiff
    change (b = true ↔ sliceAgrees Estate.sameNonIgnored x.Estates y.Estates) at hiff
    simp [cmp.EqualEstatesResponse, hb, hiff]

/-! ## Every verifier follows the common shape -/

/-- When the snapshot loads and its request decodes to a live call, the verifier
issues exactly that call and ends as `judge` says. -/
theorem verifier_eq_judge (k : Category) (E : Codec) (c : Client) (filePath : String)
    (snapshot : Snapshot) (call : LiveCall)
    (hload : loadSnapshotFromFile E filePath = .ok (some snapshot))
    (hreq : decodeRequest E k snapshot.Request = some call) :
    k.verifier E c filePath =
      ⟨[call], judge k filePath snapshot.Response.StatusCode
        (decodeExpected E k snapshot.Response.Body) (c.answer call).1 (c.answer call).2⟩ := by
  rcases c with ⟨f1, f2, f3, f4, f5, f6, f7, f8, f9, f10⟩
  cases k
  · simp only [decodeRequest] at hreq
    split at hreq
    · cases hreq
    · rename_i hp
      cases hreq
      unfold pathCheckFails at hp
      simp only [Category.verifier, verifyChairDetail, hload]
      rw [if_neg hp]
      simp only [identifier, judge, Client.answer, decodeExpected, Category.message]
      generalize f1 _ = res
      rcases res with ⟨a, e⟩
      rcases E.unmarshalChair snapshot.Response.Body with er | ex
      · cases a <;> cases e <;> simp [Except.map, StatusOK, StatusNotFound]
      · cases a <;> cases e <;> cases ex <;> simp [Except.map, cmpEqual, StatusOK, StatusNotFound]
  · simp only [decodeRequest] at hreq
    cases hreq
    simp only [Category.verifier, verifyChairSearchCondition, hload]
    simp only [judge, Client.answer, decodeExpected, Category.message]
    generalize f2 = res
    rcases res with ⟨a, e⟩
    rcases E.unmarshalChairSearchCondition snapshot.Response.Body with er | ex
    · cases a <;> cases e <;> simp [Except.map, StatusOK, StatusNotFound]
    · cases a <;> cases e <;> cases ex <;> simp [Except.map, cmpEqual, StatusOK, StatusNotFound]
  · simp only [decodeRequest] at hreq
    split at hreq
    · cases hreq
    · rename_i q1 q hq
      cases hreq
      simp only [Category.verifier, verifyChairSearch, hload, hq]
      simp only [judge, Client.answer, decodeExpected, Category.message]
      generalize f3 _ = res
      rcases res with ⟨a, e⟩
      rcases E.unmarshalChairsResponse snapshot.Response.Body with er | ex
      · cases a <;> cases e <;> simp [Except.map, StatusOK, StatusNotFound]
      · cases a <;> cases e <;> cases ex <;> simp [Except.map, cmpEqual, StatusOK, StatusNotFound]
  · simp only [decodeRequest] at hreq
    split at hreq
    · cases hreq
    · rename_i hp
      cases hreq
      unfold pathCheckFails at hp
      simp only [Category.verifier, verifyEstateDetail, hload]
      rw [if_neg hp]
      simp only [identifier, judge, Client.answer, decodeExpected, Category.message]
      generalize f4 _ = res
      rcases res with ⟨a, e⟩
      rcases E.unmarshalEstate snapshot.Response.Body with er | ex
      · cases a <;> cases e <;> simp [Except.map, StatusOK, StatusNotFound]
      · cases a <;> cases e <;> cases ex <;> simp [Except.map, cmpEqual, StatusOK, StatusNotFound]
  · simp only [decodeRequest] at hreq
    cases hreq
    simp only [Category.verifier, verifyEstateSearchCondition, hload]
    simp only [judge, Client.answer, decodeExpected, Category.message]
    generalize f5 = res
    rcases res with ⟨a, e⟩
    rcases E.unmarshalEstateSearchCondition snapshot.Response.Body with er | ex
    · cases a <;> cases e <;> simp [Except.map, StatusOK, StatusNotFound]
    · cases a <;> cases e <;> cases ex <;> simp [Except.map, cmpEqual, StatusOK, StatusNotFound]
  · simp only [decodeRequest] at hreq
    split at hreq
    · cases hreq
    · rename_i q1 q hq
      cases hreq
      simp only [Category.verifier, verifyEstateSearch, hload, hq]
      simp only [judge, Client.answer, decodeExpected, Category.message]
      generalize f6 _ = res
      rcases res with ⟨a, e⟩
      rcases E.unmarshalEstatesResponse snapshot.Response.Body with er | ex
      · cases a <;> cases e <;> simp [Except.map, StatusOK, StatusNotFound]
      · cases a <;> cases e <;> cases ex <;> simp [Except.map, cmpEqual, StatusOK, StatusNotFound]
  · simp only [decodeRequest] at hreq
    cases hreq
    simp only [Category.verifier, verifyLowPricedChair, hload]
    simp only [judge, Client.answer, decodeExpected, Category.message]
    generalize f7 = res
    rcases res with ⟨a, e⟩
    rcases E.unmarshalChairsResponse snapshot.Response.Body with er | ex
    · cases a <;> cases e <;> simp [Except.map, StatusOK, StatusNotFound]
    · cases a <;> cases e <;> cases ex <;> simp [Except.map, cmpEqual, StatusOK, StatusNotFound]
  · simp only [decodeRequest] at hreq
    cases hreq
    simp only [Category.verifier, verifyLowPricedEstate, hload]
    simp only [judge, Client.answer, decodeExpected, Category.message]
    generalize f8 = res
    rcases res with ⟨a, e⟩
    rcases E.unmarshalEstatesResponse snapshot.Response.Body with er | ex
    · cases a <;> cases e <;> simp [Except.map, StatusOK, StatusNotFound]
    · cases a <;> cases e <;> cases ex <;> simp [Except.map, cmpEqual, StatusOK, StatusNotFound]
  · simp only [decodeRequest] at hreq
    split at hreq
    · cases hreq
    · rename_i hp
      split at hreq
      · cases hreq
      · rename_i id hid
        cases hreq
        unfold pathCheckFails at hp
        simp only [identifier] at hid
        simp only [Category.verifier, verifyRecommendedEstateWithChair, hload]
        rw [if_neg hp]
        simp only [hid, judge, Client.answer, decodeExpected, Category.message]
        generalize f9 _ = res
        rcases res with ⟨a, e⟩
        rcases E.unmarshalEstatesResponse snapshot.Response.Body with er | ex
        · cases a <;> cases e <;> simp [Except.map, StatusOK, StatusNotFound]
        · cases a <;> cases e <;> cases ex <;> simp [Except.map, cmpEqual, StatusOK, StatusNotFound]
  · simp only [decodeRequest] at hreq
    split at hreq
    · cases hreq
    · rename_i co hco
      cases hreq
      simp only [Category.verifier, verifyEstateNazotte, hload, hco]
      simp only [judge, Client.answer, decodeExpected, Category.message]
      generalize f10 _ = res
      rcases res with ⟨a, e⟩
      rcases E.unmarshalEstatesResponse snapshot.Response.Body with er | ex
      · cases a <;> cases e <;> simp [Except.map, StatusOK, StatusNotFound]
      · cases a <;> cases e <;> cases ex <;> simp [Except.map, cmpEqual, StatusOK, StatusNotFound]

/-! ## Lemmas on the path check -/

theorem lastIndexLoop_of_not_mem (s : List Char) (c : Char) (h : c ∉ s) (n : Nat) :
    lastIndexLoop s c n = -1 := by
  induction n with
  | zero => rfl
  | succ n ih =>
    unfold lastIndexLoop
    have hne : s.get? n ≠ some c := fun hget => h (List.get?_mem hget)
    rw [if_neg hne, ih]

theorem lastIndexLoop_of_getLast (s : List Char) (c : Char) (h : s.getLast? = some c) :
    lastIndexLoop s c s.length = (s.length : Int) - 1 := by
  cases hlen : s.length with
  | zero =>
    have : s = [] := List.length_eq_zero.mp hlen
    subst this
    simp at h
  | succ m =>
    have hget : s.get? m = some c := by
      rw [List.getLast?_eq_getElem?, hlen] at h
      simpa using h
    unfold lastIndexLoop
    rw [if_pos hget]
    push_cast
    ring

/-- A resource without `/`, or ending in `/`, fails the path check of the detail
verifiers. -/
theorem pathCheckFails_of_bad_path (resource : String)
    (h : '/' ∉ resource.data ∨ resource.data.getLast? = some '/') :
    pathCheckFails resource := by
  unfold pathCheckFails LastIndex
  rcases h with h | h
  · exact Or.inl (lastIndexLoop_of_not_mem _ _ h _)
  · exact Or.inr (lastIndexLoop_of_getLast _ _ h)

/-- A detail verifier whose snapshot fails the path check issues no live call and
returns what `failure.Translate` makes of the nil error of the load: nil. -/
theorem detail_verifier_of_pathCheckFails (k : Category) (hk : k.isDetail = true) (E : Codec)
    (c : Client) (filePath : String) (snapshot : Snapshot)
    (hload : loadSnapshotFromFile E filePath = .ok (some snapshot))
    (hbad : pathCheckFails snapshot.Request.Resource) :
    k.verifier E c filePath = ⟨[], .returned none⟩ := by
  unfold pathCheckFails at hbad
  cases k <;> simp only [Category.isDetail, Bool.false_eq_true] at hk
  · simp only [Category.verifier, verifyChairDetail, hload]
    rw [if_pos hbad]; rfl
  · simp only [Category.verifier, verifyEstateDetail, hload]
    rw [if_pos hbad]; rfl
  · simp only [Category.verifier, verifyRecommendedEstateWithChair, hload]
    rw [if_pos hbad]; rfl

/-- A listing error makes the block of a category add exactly one tooling-fault record
and launch nothing, when the run has not panicked before. -/
theorem verifyCategory_of_listing_error (W : World) (parent : String) (k : Category)
    (st : Orchestration) (err : GoError) (hst : st.panicked = false)
    (hlist : W.ReadDir (W.Join parent k.dirName) = .error err) :
    verifyCategory W parent k st =
      { st with added := st.added ++
          [{ code := .ErrBenchmarker, message := k.message, snapshot := none, cause := some err }] } := by
  simp [verifyCategory, hst, hlist, failure.Translate, fails.Add]

/-- After a panic the block of a category does nothing. -/
theorem verifyCategory_of_panicked (W : World) (parent : String) (k : Category)
    (st : Orchestration) (hst : st.panicked = true) :
    verifyCategory W parent k st = st := by
  simp [verifyCategory, hst]

/-- An empty listing makes the block of a category panic at its first draw. -/
theorem verifyCategory_of_empty_listing (W : World) (parent : String) (k : Category)
    (st : Orchestration) (hst : st.panicked = false)
    (hlist : W.ReadDir (W.Join parent k.dirName) = .ok []) :
    verifyCategory W parent k st = { st with panicked := true } := by
  cases k <;> simp [verifyCategory, hst, hlist, Category.numOfVerify, launchLoop, Intn,
    NumOfVerifyChairDetail, NumOfVerifyChairSearchCondition, NumOfVerifyChairSearch,
    NumOfVerifyEstateDetail, NumOfVerifyEstateSearchCondition, NumOfVerifyEstateSearch,
    NumOfVerifyLowPricedChair, NumOfVerifyLowPricedEstate,
    NumOfVerifyRecommendedEstateWithChair, NumOfVerifyEstateNazotte]

/-! ## The outcome after the live call -/

theorem judge_isFailureOf_new (code : Code) (m : String) (s : Option String) :
    (Outcome.returned (failure.New code m s)).isFailureOf code :=
  ⟨_, rfl, rfl⟩

theorem judge_isFailureOf_translate (e : GoError) (code : Code) (m : String)
    (s : Option String) :
    (Outcome.returned (failure.Translate (some e) code m s)).isFailureOf code :=
  ⟨_, rfl, rfl⟩

theorem not_isSuccess_of_isFailureOf (o : Outcome) (code : Code) (h : o.isFailureOf code) :
    ¬ o.isSuccess := by
  rcases h with ⟨f, hf, _⟩
  simp [Outcome.isSuccess, hf]

/-! ## C1 -/

/-- C1, counterexample: `verifyEstateDetail` on a snapshot of path `/api/estate/1`
with recorded status 404, against a live call that returns the absent value and no
error, returns an application-fault failure instead of no failure. -/
theorem C1_counterexample :
    Category.isDetail .estate_detail = true ∧
    loadSnapshotFromFile (demoCodec (some (demoSnapshot "/api/estate/1" 404 "")))  "f"
      = .ok (some (demoSnapshot "/api/estate/1" 404 "")) ∧
    decodeRequest (demoCodec (some (demoSnapshot "/api/estate/1" 404 ""))) .estate_detail
      (demoSnapshot "/api/estate/1" 404 "").Request = some (.GetEstateDetailFromID "1") ∧
    (demoClient none none none none).answer (.GetEstateDetailFromID "1") = (none, none) ∧
    verifyEstateDetail (demoCodec (some (demoSnapshot "/api/estate/1" 404 "")))
      (demoClient none none none none) "f"
      = ⟨[.GetEstateDetailFromID "1"],
          .returned (some ⟨.ErrApplication, "GET /api/estate/:id", none, none⟩)⟩ :=
  ⟨rfl, rfl, by decide, rfl, by decide⟩

/-- C1, amended: for a snapshot with a well-formed resource path and recorded status
404 whose live call returns no error, `verifyChairDetail` returns no failure when the
live value is absent, and every other case (a present value in `verifyChairDetail`;
an absent or present value in `verifyEstateDetail` and
`verifyRecommendedEstateWithChair`, which have no branch for 404) returns exactly one
application-fault failure. -/
theorem C1_detail_lookup_recorded_404 (k : Category) (E : Codec) (c : Client)
    (filePath : String) (snapshot : Snapshot) (call : LiveCall)
    (hk : k.isDetail = true)
    (hload : loadSnapshotFromFile E filePath = .ok (some snapshot))
    (hreq : decodeRequest E k snapshot.Request = some call)
    (hstatus : snapshot.Response.StatusCode = StatusNotFound)
    (herr : (c.answer call).2 = none) :
    ((k = .chair_detail ∧ (c.answer call).1 = none) →
      (k.verifier E c filePath).outcome.isSuccess) ∧
    (¬ (k = .chair_detail ∧ (c.answer call).1 = none) →
      (k.verifier E c filePath).outcome.isFailureOf .ErrApplication) := by
  have _ := hk
  rw [verifier_eq_judge k E c filePath snapshot call hload hreq]
  simp only [judge, hstatus, herr, StatusNotFound, StatusOK]
  constructor
  · rintro ⟨hk1, hv⟩
    simp [hk1, hv, Outcome.isSuccess]
  · intro hn
    by_cases hk1 : k = .chair_detail
    · have hv : (c.answer call).1 ≠ none := fun hv => hn ⟨hk1, hv⟩
      obtain ⟨v, hv⟩ := Option.ne_none_iff_exists'.mp hv
      simp only [hk1, hv]
      exact judge_isFailureOf_new _ _ _
    · simp only [hk1]
      exact judge_isFailureOf_new _ _ _

/-- C1, witness: `verifyChairDetail` on a snapshot of path `/api/chair/1` with
recorded status 404, against a live call that returns the absent value. -/
theorem C1_detail_lookup_recorded_404_witness :
    (Category.verifier .chair_detail (demoCodec (some (demoSnapshot "/api/chair/1" 404 "")))
      (demoClient none none none none) "f").outcome.isSuccess :=
  (C1_detail_lookup_recorded_404 .chair_detail
    (demoCodec (some (demoSnapshot "/api/chair/1" 404 ""))) (demoClient none none none none)
    "f" (demoSnapshot "/api/chair/1" 404 "") (.GetChairDetailFromID "1")
    rfl rfl (by decide) rfl rfl).1 ⟨rfl, rfl⟩

/-! ## C2 -/

/-- C2, counterexample: `verifyChairDetail` on a snapshot with recorded status 404,
against a live call that returns an error, returns an application-fault failure
although the recorded status is not 200. -/
theorem C2_counterexample :
    loadSnapshotFromFile (demoCodec (some (demoSnapshot "/api/chair/1" 404 "")))  "f"
      = .ok (some (demoSnapshot "/api/chair/1" 404 "")) ∧
    decodeRequest (demoCodec (some (demoSnapshot "/api/chair/1" 404 ""))) .chair_detail
      (demoSnapshot "/api/chair/1" 404 "").Request = some (.GetChairDetailFromID "1") ∧
    (demoClient none none none (some ⟨"timeout"⟩)).answer (.GetChairDetailFromID "1")
      = (none, some ⟨"timeout"⟩) ∧
    (demoSnapshot "/api/chair/1" 404 "").Response.StatusCode ≠ StatusOK ∧
    verifyChairDetail (demoCodec (some (demoSnapshot "/api/chair/1" 404 "")))
      (demoClient none none none (some ⟨"timeout"⟩)) "f"
      = ⟨[.GetChairDetailFromID "1"],
          .returned (some ⟨.ErrApplication, "GET /api/chair/:id", none, some ⟨"timeout"⟩⟩)⟩ :=
  ⟨rfl, by decide, rfl, by decide, by decide⟩

/-- C2, amended: for every verifier and every snapshot whose request decodes, when the
live call returns an error the verifier returns an application-fault failure if the
recorded status code is 200, or is 404 in `verifyChairDetail`; for every other
recorded status code it returns no failure. -/
theorem C2_live_call_error (k : Category) (E : Codec) (c : Client)
    (filePath : String) (snapshot : Snapshot) (call : LiveCall) (e : GoError)
    (hload : loadSnapshotFromFile E filePath = .ok (some snapshot))
    (hreq : decodeRequest E k snapshot.Request = some call)
    (herr : (c.answer call).2 = some e) :
    ((snapshot.Response.StatusCode = StatusOK ∨
        (k = .chair_detail ∧ snapshot.Response.StatusCode = StatusNotFound)) →
      (k.verifier E c filePath).outcome.isFailureOf .ErrApplication) ∧
    (¬ (snapshot.Response.StatusCode = StatusOK ∨
        (k = .chair_detail ∧ snapshot.Response.StatusCode = StatusNotFound)) →
      (k.verifier E c filePath).outcome.isSuccess) := by
  rw [verifier_eq_judge k E c filePath snapshot call hload hreq]
  simp only [judge, herr]
  constructor
  · rintro (h200 | ⟨hk1, h404⟩)
    · simp only [h200, if_true]
      exact judge_isFailureOf_translate _ _ _ _
    · have hne : ¬ (snapshot.Response.StatusCode = StatusOK) := by
        rw [h404]; decide
      simp only [hne, if_false, hk1, h404, true_and, if_true]
      cases (c.answer call).1 with
      | none => exact judge_isFailureOf_translate _ _ _ _
      | some v => exact judge_isFailureOf_new _ _ _
  · intro hn
    have h200 : ¬ (snapshot.Response.StatusCode = StatusOK) := fun h => hn (Or.inl h)
    have h404 : ¬ (k = .chair_detail ∧ snapshot.Response.StatusCode = StatusNotFound) :=
      fun h => hn (Or.inr h)
    simp [h200, h404, Outcome.isSuccess]

/-- C2, witness: `verifyEstateSearch` on a snapshot with recorded status 400, against
a live call that returns an error, returns no failure. -/
theorem C2_live_call_error_witness :
    (Category.verifier .estate_search (demoCodec (some (demoSnapshot "/api/estate/search" 400 "")))
      (demoClient none none none (some ⟨"bad request"⟩)) "f").outcome.isSuccess :=
  (C2_live_call_error .estate_search
    (demoCodec (some (demoSnapshot "/api/estate/search" 400 "")))
    (demoClient none none none (some ⟨"bad request"⟩)) "f"
    (demoSnapshot "/api/estate/search" 400 "") (.SearchEstatesWithQuery [("", [])])
    ⟨"bad request"⟩ rfl (by decide) rfl).2 (by decide)

/-! ## C3 -/

/-- C3, the code at the inputs of the claim: a detail-lookup verifier whose loaded
snapshot has a resource without `/`, or ending in `/`, issues no live call, as
claimed, but returns nil, no failure at all: it passes the nil error of the
successful load to `failure.Translate`, which hands nil back. -/
theorem C3_bad_path_returns_nil (k : Category) (E : Codec) (c : Client)
    (filePath : String) (snapshot : Snapshot)
    (hk : k.isDetail = true)
    (hload : loadSnapshotFromFile E filePath = .ok (some snapshot))
    (hbad : '/' ∉ snapshot.Request.Resource.data ∨
      snapshot.Request.Resource.data.getLast? = some '/') :
    (k.verifier E c filePath).calls = [] ∧
    (k.verifier E c filePath).outcome = .returned none ∧
    ¬ (k.verifier E c filePath).outcome.isFailureOf .ErrBenchmarker := by
  rw [detail_verifier_of_pathCheckFails k hk E c filePath snapshot hload
    (pathCheckFails_of_bad_path _ hbad)]
  refine ⟨rfl, rfl, ?_⟩
  rintro ⟨f, hf, _⟩
  cases hf

/-- C3, witness: `verifyChairDetail` on a snapshot of resource `noslash`. -/
theorem C3_bad_path_returns_nil_witness :
    (Category.verifier .chair_detail (demoCodec (some (demoSnapshot "noslash" 200 "")))
      (demoClient (some chairA) none none none) "f").calls = [] ∧
    (Category.verifier .chair_detail (demoCodec (some (demoSnapshot "noslash" 200 "")))
      (demoClient (some chairA) none none none) "f").outcome = .returned none ∧
    ¬ (Category.verifier .chair_detail (demoCodec (some (demoSnapshot "noslash" 200 "")))
      (demoClient (some chairA) none none none) "f").outcome.isFailureOf .ErrBenchmarker :=
  C3_bad_path_returns_nil .chair_detail (demoCodec (some (demoSnapshot "noslash" 200 "")))
    (demoClient (some chairA) none none none) "f" (demoSnapshot "noslash" 200 "")
    rfl rfl (Or.inl (by decide))

/-! ## C4 -/

/-- C4: for every verifier and every snapshot with recorded status 200 whose recorded
body decodes to a value, when the live call succeeds with a present value the
verifier returns no failure if the live value is structurally equal to the decoded
body under the ignore rules, and exactly one application-fault failure if it is
not. -/
theorem C4_recorded_200_comparison (k : Category) (E : Codec) (c : Client)
    (filePath : String) (snapshot : Snapshot) (call : LiveCall) (expected actual : Value)
    (hload : loadSnapshotFromFile E filePath = .ok (some snapshot))
    (hreq : decodeRequest E k snapshot.Request = some call)
    (hstatus : snapshot.Response.StatusCode = StatusOK)
    (hbody : decodeExpected E k snapshot.Response.Body = .ok (some expected))
    (hlive : c.answer call = (some actual, none)) :
    (expected.equalModuloIgnored actual →
      (k.verifier E c filePath).outcome.isSuccess) ∧
    (¬ expected.equalModuloIgnored actual →
      (k.verifier E c filePath).outcome.isFailureOf .ErrApplication) := by
  rw [verifier_eq_judge k E c filePath snapshot call hload hreq]
  obtain ⟨b, hb, hiff⟩ := cmpEqual_spec expected actual
  simp only [judge, hstatus, hbody, hlive, hb, if_true]
  have hnot : ¬ (k = Category.chair_detail ∧ (some actual : Option Value) = none) := by
    simp
  rw [if_neg hnot]
  constructor
  · intro h
    rw [hiff.mpr h]
    rfl
  · intro h
    have hbf : b = false := by
      cases b
      · rfl
      · exact absurd (hiff.mp rfl) h
    rw [hbf]
    exact judge_isFailureOf_new _ _ _

/-- C4, witness: `verifyChairSearch` on a snapshot with recorded status 200 whose body
lists one chair, against a live call that lists the same chair. -/
theorem C4_recorded_200_comparison_witness :
    (Category.verifier .chair_search (demoCodec (some (demoSnapshot "/api/chair/search" 200 "x")))
      (demoClient none none none none) "f").outcome.isSuccess :=
  (C4_recorded_200_comparison .chair_search
    (demoCodec (some (demoSnapshot "/api/chair/search" 200 "x")))
    (demoClient none none none none) "f" (demoSnapshot "/api/chair/search" 200 "x")
    (.SearchChairsWithQuery [("", [])]) (.chairs ⟨[], some [chairA]⟩)
    (.chairs ⟨[], some [chairA]⟩) rfl (by decide) rfl rfl rfl).1
    ⟨rfl, List.Forall₂.cons rfl List.Forall₂.nil⟩

/-! ## C5 -/

theorem sliceAgrees_mono {α : Type} (R S : α → α → Prop) (h : ∀ x y, R x y → S x y)
    (xs ys : Option (List α)) (hxy : sliceAgrees R xs ys) : sliceAgrees S xs ys := by
  cases xs <;> cases ys <;> simp only [sliceAgrees] at hxy ⊢
  exact hxy.imp (fun {a b} hab => h a b hab)

theorem equalModuloIgnored_of_differsOnlyInCoordinates (x y : Value)
    (h : x.differsOnlyInCoordinates y) : x.equalModuloIgnored y := by
  cases x <;> cases y <;> simp only [Value.differsOnlyInCoordinates] at h
  · exact h.1
  · exact ⟨h.1, sliceAgrees_mono _ _ (fun _ _ hab => hab.1) _ _ h.2⟩

/-- C5: for every estate-valued verifier and every snapshot with recorded status 200,
if the live call succeeds with a value that differs from the decoded recorded body
only in `Latitude` and `Longitude` fields of estates, at any position, the verifier
returns no failure. -/
theorem C5_coordinates_ignored (k : Category) (E : Codec) (c : Client)
    (filePath : String) (snapshot : Snapshot) (call : LiveCall) (expected actual : Value)
    (hk : k.isEstateValued = true)
    (hload : loadSnapshotFromFile E filePath = .ok (some snapshot))
    (hreq : decodeRequest E k snapshot.Request = some call)
    (hstatus : snapshot.Response.StatusCode = StatusOK)
    (hbody : decodeExpected E k snapshot.Response.Body = .ok (some expected))
    (hlive : c.answer call = (some actual, none))
    (hdiff : expected.differsOnlyInCoordinates actual) :
    (k.verifier E c filePath).outcome.isSuccess := by
  have _ := hk
  rw [verifier_eq_judge k E c filePath snapshot call hload hreq]
  obtain ⟨b, hb, hiff⟩ := cmpEqual_spec expected actual
  have hbt : b = true :=
    hiff.mpr (equalModuloIgnored_of_differsOnlyInCoordinates _ _ hdiff)
  simp only [judge, hstatus, hbody, hlive, hb, hbt, if_true]
  have hnot : ¬ (k = Category.chair_detail ∧ (some actual : Option Value) = none) := by
    simp
  rw [if_neg hnot]
  rfl

/-- C5, witness: `verifyEstateNazotte` on a snapshot with recorded status 200 whose
body lists the estate `estateA`, against a live call that lists the same estate at
other coordinates. -/
theorem C5_coordinates_ignored_witness :
    estateA.Latitude ≠ estateB.Latitude ∧ estateA.Longitude ≠ estateB.Longitude ∧
    (Category.verifier .estate_nazotte (demoCodec (some (demoSnapshot "/api/estate/nazotte" 200 "x")))
      (demoClient none none (some ⟨[], some [estateB]⟩) none) "f").outcome.isSuccess :=
  ⟨by decide, by decide,
   C5_coordinates_ignored .estate_nazotte
    (demoCodec (some (demoSnapshot "/api/estate/nazotte" 200 "x")))
    (demoClient none none (some ⟨[], some [estateB]⟩) none) "f"
    (demoSnapshot "/api/estate/nazotte" 200 "x")
    (.SearchEstatesNazotte (some ⟨[]⟩)) (.estates ⟨[], some [estateA]⟩)
    (.estates ⟨[], some [estateB]⟩) rfl rfl (by decide) rfl rfl rfl
    ⟨rfl, List.Forall₂.cons ⟨rfl, rfl⟩ List.Forall₂.nil⟩⟩

/-! ## C6 -/

/-- C6, the code at the inputs of the claim: for a snapshot with recorded status 200
and a decodable recorded body, against a live call that returns no error and the
absent value, `verifyChairDetail` returns an application-fault failure, as claimed,
but each of the other nine verifiers dereferences the absent value and panics. -/
theorem C6_absent_live_value (k : Category) (E : Codec) (c : Client)
    (filePath : String) (snapshot : Snapshot) (call : LiveCall) (expected : Option Value)
    (hload : loadSnapshotFromFile E filePath = .ok (some snapshot))
    (hreq : decodeRequest E k snapshot.Request = some call)
    (hstatus : snapshot.Response.StatusCode = StatusOK)
    (hbody : decodeExpected E k snapshot.Response.Body = .ok expected)
    (hlive : c.answer call = (none, none)) :
    (k = .chair_detail → (k.verifier E c filePath).outcome.isFailureOf .ErrApplication) ∧
    (k ≠ .chair_detail → (k.verifier E c filePath).outcome = .panicked) := by
  rw [verifier_eq_judge k E c filePath snapshot call hload hreq]
  simp only [judge, hstatus, hbody, hlive, if_true]
  constructor
  · intro hk
    simp only [hk, and_self, if_true]
    exact judge_isFailureOf_new _ _ _
  · intro hk
    simp only [hk, false_and, if_false]

/-- C6, witness: `verifyEstateDetail` on a snapshot of path `/api/estate/1` with
recorded status 200, against a live call that returns the absent value and no error,
panics. -/
theorem C6_absent_live_value_witness :
    (Category.verifier .estate_detail (demoCodec (some (demoSnapshot "/api/estate/1" 200 "x")))
      (demoClient none none none none) "f").outcome = .panicked :=
  (C6_absent_live_value .estate_detail
    (demoCodec (some (demoSnapshot "/api/estate/1" 200 "x"))) (demoClient none none none none)
    "f" (demoSnapshot "/api/estate/1" 200 "x") (.GetEstateDetailFromID "1") (some (.estate estateA))
    rfl (by decide) rfl rfl rfl).2 (by decide)

/-! ## C7 -/

/-- C7, counterexample: `verifyChairDetail` on a snapshot with recorded status 200
whose recorded body does not decode, against a live call that returns an error,
returns an application-fault failure, not a tooling-fault failure. -/
theorem C7_counterexample :
    loadSnapshotFromFile (demoCodec (some (demoSnapshot "/api/chair/1" 200 "not json")))  "f"
      = .ok (some (demoSnapshot "/api/chair/1" 200 "not json")) ∧
    (demoSnapshot "/api/chair/1" 200 "not json").Response.StatusCode = StatusOK ∧
    decodeExpected (demoCodec (some (demoSnapshot "/api/chair/1" 200 "not json"))) .chair_detail
      (demoSnapshot "/api/chair/1" 200 "not json").Response.Body
      = .error ⟨"unexpected end of JSON input"⟩ ∧
    verifyChairDetail (demoCodec (some (demoSnapshot "/api/chair/1" 200 "not json")))
      (demoClient none none none (some ⟨"timeout"⟩)) "f"
      = ⟨[.GetChairDetailFromID "1"],
          .returned (some ⟨.ErrApplication, "GET /api/chair/:id", none, some ⟨"timeout"⟩⟩)⟩ :=
  ⟨rfl, rfl, rfl, by decide⟩

/-- C7, amended: for every verifier and every snapshot with recorded status 200 whose
recorded body does not decode, the verifier returns a tooling-fault failure when the
live call returned no error, whatever value it returned; when the live call returned
an error, which is tested before the body is decoded, it returns an application-fault
failure. -/
theorem C7_undecodable_body (k : Category) (E : Codec) (c : Client)
    (filePath : String) (snapshot : Snapshot) (call : LiveCall) (e : GoError)
    (hload : loadSnapshotFromFile E filePath = .ok (some snapshot))
    (hreq : decodeRequest E k snapshot.Request = some call)
    (hstatus : snapshot.Response.StatusCode = StatusOK)
    (hbody : decodeExpected E k snapshot.Response.Body = .error e) :
    ((c.answer call).2 = none →
      (k.verifier E c filePath).outcome.isFailureOf .ErrBenchmarker) ∧
    ((c.answer call).2 ≠ none →
      (k.verifier E c filePath).outcome.isFailureOf .ErrApplication) := by
  rw [verifier_eq_judge k E c filePath snapshot call hload hreq]
  simp only [judge, hstatus, hbody, if_true]
  constructor
  · intro herr
    simp only [herr]
    exact judge_isFailureOf_translate _ _ _ _
  · intro herr
    obtain ⟨e2, he2⟩ := Option.ne_none_iff_exists'.mp herr
    simp only [he2]
    exact judge_isFailureOf_translate _ _ _ _

/-- C7, witness: `verifyEstateNazotte` on a snapshot with recorded status 200 whose
recorded body does not decode, against a live call that returns a value and no
error, returns a tooling-fault failure. -/
theorem C7_undecodable_body_witness :
    (Category.verifier .estate_nazotte (demoCodec (some (demoSnapshot "/api/estate/nazotte" 200 "not json")))
      (demoClient none none (some ⟨[], none⟩) none) "f").outcome.isFailureOf .ErrBenchmarker :=
  (C7_undecodable_body .estate_nazotte
    (demoCodec (some (demoSnapshot "/api/estate/nazotte" 200 "not json")))
    (demoClient none none (some ⟨[], none⟩) none) "f"
    (demoSnapshot "/api/estate/nazotte" 200 "not json") (.SearchEstatesNazotte (some ⟨[]⟩))
    ⟨"unexpected end of JSON input"⟩ rfl (by decide) rfl rfl).1 rfl

/-! ## C8 -/

/-- C8: for every verifier and every snapshot whose request decodes and whose recorded
status code is neither 200 nor 404, the verifier returns exactly one
application-fault failure when the live call returns no error and no failure when it
returns an error, and its outcome is the same for any two live answers that agree on
whether there is an error. -/
theorem C8_other_recorded_status (k : Category) (E : Codec) (c : Client)
    (filePath : String) (snapshot : Snapshot) (call : LiveCall)
    (hload : loadSnapshotFromFile E filePath = .ok (some snapshot))
    (hreq : decodeRequest E k snapshot.Request = some call)
    (h200 : snapshot.Response.StatusCode ≠ StatusOK)
    (h404 : snapshot.Response.StatusCode ≠ StatusNotFound) :
    ((c.answer call).2 = none →
      (k.verifier E c filePath).outcome.isFailureOf .ErrApplication) ∧
    ((c.answer call).2 ≠ none → (k.verifier E c filePath).outcome.isSuccess) ∧
    (∀ c2 : Client, ((c2.answer call).2 = none ↔ (c.answer call).2 = none) →
      (k.verifier E c2 filePath).outcome = (k.verifier E c filePath).outcome) := by
  have hj : ∀ c1 : Client, (k.verifier E c1 filePath).outcome =
      match (c1.answer call).2 with
      | none => .returned (failure.New .ErrApplication k.message none)
      | some _ => .returned none := by
    intro c1
    rw [verifier_eq_judge k E c1 filePath snapshot call hload hreq]
    simp only [judge, h200, h404, and_false, if_false]
  refine ⟨?_, ?_, ?_⟩
  · intro herr
    rw [hj, herr]
    exact judge_isFailureOf_new _ _ _
  · intro herr
    obtain ⟨e2, he2⟩ := Option.ne_none_iff_exists'.mp herr
    rw [hj, he2]
    rfl
  · intro c2 hsame
    rw [hj c2, hj c]
    cases h1 : (c.answer call).2 with
    | none => rw [hsame.mpr h1]
    | some e1 =>
      cases h2 : (c2.answer call).2 with
      | none => rw [hsame.mp h2] at h1; cases h1
      | some e2 => rfl

/-- C8, witness: `verifyLowPricedChair` on a snapshot with recorded status 500. -/
theorem C8_other_recorded_status_witness :
    (Category.verifier .chair_low_priced (demoCodec (some (demoSnapshot "/api/chair/low_priced" 500 "")))
      (demoClient none none none none) "f").outcome.isFailureOf .ErrApplication :=
  (C8_other_recorded_status .chair_low_priced
    (demoCodec (some (demoSnapshot "/api/chair/low_priced" 500 "")))
    (demoClient none none none none) "f" (demoSnapshot "/api/chair/low_priced" 500 "")
    .GetLowPricedChair rfl rfl (by decide) (by decide)).1 rfl

/-! ## C9 -/

/-- C9: a failure before the live call (the snapshot file does not load or decode, the
recorded query does not parse, the recorded request body does not decode into
coordinates, or the trailing path segment is not a base-10 64-bit integer) makes the
verifier return a tooling-fault failure without issuing the live call. -/
theorem C9_failure_before_live_call (k : Category) (E : Codec) (c : Client)
    (filePath : String) (h : failsBeforeLiveCall E k filePath) :
    (k.verifier E c filePath).calls = [] ∧
    (k.verifier E c filePath).outcome.isFailureOf .ErrBenchmarker := by
  rcases h with ⟨e, hload⟩ | ⟨snapshot, hload, hq | hco | hid⟩
  · cases k <;>
      simp only [Category.verifier, verifyChairDetail, verifyChairSearchCondition,
        verifyChairSearch, verifyEstateDetail, verifyEstateSearchCondition,
        verifyEstateSearch, verifyLowPricedChair, verifyLowPricedEstate,
        verifyRecommendedEstateWithChair, verifyEstateNazotte, hload] <;>
      exact ⟨by first | rfl | trivial, judge_isFailureOf_translate _ _ _ _⟩
  · rcases hq with ⟨hk | hk, e, he⟩
    · subst hk
      rcases hp : E.ParseQuery snapshot.Request.Query with ⟨q, err⟩
      rw [hp] at he
      simp only at he
      subst he
      simp only [Category.verifier, verifyChairSearch, hload, hp]
      exact ⟨by first | rfl | trivial, judge_isFailureOf_translate _ _ _ _⟩
    · subst hk
      rcases hp : E.ParseQuery snapshot.Request.Query with ⟨q, err⟩
      rw [hp] at he
      simp only at he
      subst he
      simp only [Category.verifier, verifyEstateSearch, hload, hp]
      exact ⟨by first | rfl | trivial, judge_isFailureOf_translate _ _ _ _⟩
  · rcases hco with ⟨hk, e, he⟩
    subst hk
    simp only [Category.verifier, verifyEstateNazotte, hload, he]
    exact ⟨by first | rfl | trivial, judge_isFailureOf_translate _ _ _ _⟩
  · rcases hid with ⟨hk, hp, e, he⟩
    subst hk
    unfold pathCheckFails at hp
    simp only [identifier] at he
    simp only [Category.verifier, verifyRecommendedEstateWithChair, hload]
    rw [if_neg hp]
    simp only [he]
    exact ⟨by first | rfl | trivial, judge_isFailureOf_translate _ _ _ _⟩

/-- C9, witness: `verifyRecommendedEstateWithChair` on a snapshot whose path ends in
the segment `abc`. -/
theorem C9_failure_before_live_call_witness :
    (Category.verifier .recommended_estate_with_chair
      (demoCodec (some (demoSnapshot "/api/recommended_estate/abc" 200 "x")))
      (demoClient none none (some ⟨[], none⟩) none) "f").calls = [] ∧
    (Category.verifier .recommended_estate_with_chair
      (demoCodec (some (demoSnapshot "/api/recommended_estate/abc" 200 "x")))
      (demoClient none none (some ⟨[], none⟩) none) "f").outcome.isFailureOf .ErrBenchmarker :=
  C9_failure_before_live_call .recommended_estate_with_chair
    (demoCodec (some (demoSnapshot "/api/recommended_estate/abc" 200 "x")))
    (demoClient none none (some ⟨[], none⟩) none) "f"
    (Or.inr ⟨demoSnapshot "/api/recommended_estate/abc" 200 "x", rfl,
      Or.inr (Or.inr ⟨rfl, by decide, ⟨"invalid syntax"⟩, rfl⟩)⟩)

/-! ## Lemmas on the orchestrator -/

theorem Intn_of_pos (raw n : Nat) (hn : n ≠ 0) : Intn raw n = some (raw % n) := by
  simp [Intn, hn]

theorem launchLoop_of_nonempty (W : World) (k : Category) (dir : String)
    (snapshots : List String) (hne : snapshots ≠ []) (n : Nat) (st : Orchestration) :
    ∃ names : List String, names.length = n ∧
      (∀ name ∈ names, ∃ r, r < snapshots.length ∧ snapshots.get? r = some name) ∧
      launchLoop W k dir snapshots n st =
        { st with launched := st.launched ++ names.map (fun name => ⟨k, W.Join dir name⟩),
                  draws := st.draws + n } := by
  have hlen : snapshots.length ≠ 0 := fun h => hne (List.length_eq_zero.mp h)
  induction n generalizing st with
  | zero => exact ⟨[], rfl, by simp, by simp [launchLoop]⟩
  | succ n ih =>
    have hr : W.raw st.draws % snapshots.length < snapshots.length :=
      Nat.mod_lt _ (Nat.pos_of_ne_zero hlen)
    obtain ⟨name, hname⟩ : ∃ name, snapshots.get? (W.raw st.draws % snapshots.length) = some name :=
      ⟨snapshots.get ⟨_, hr⟩, List.get?_eq_get hr⟩
    obtain ⟨names, hl, hidx, heq⟩ := ih
      { st with launched := st.launched ++ [⟨k, W.Join dir name⟩], draws := st.draws + 1 }
    refine ⟨name :: names, by simp [hl], ?_, ?_⟩
    · intro x hx
      rcases List.mem_cons.mp hx with rfl | hx
      · exact ⟨_, hr, hname⟩
      · exact hidx x hx
    · unfold launchLoop
      simp only [Intn_of_pos _ _ hlen, hname, heq]
      simp [Nat.add_assoc, Nat.add_comm 1 n]

theorem launchLoop_of_empty (W : World) (k : Category) (dir : String) (n : Nat)
    (st : Orchestration) :
    launchLoop W k dir [] (n + 1) st = { st with panicked := true } := by
  simp [launchLoop, Intn]

theorem numOfVerify_pos (k : Category) : ∃ n, k.numOfVerify = n + 1 := by
  cases k
  all_goals first | exact ⟨4, rfl⟩ | exact ⟨0, rfl⟩

theorem verifyWithSnapshot_eq_foldl (W : World) (parent : String) :
    verifyWithSnapshot W parent =
      Category.all.foldl (fun st k => verifyCategory W parent k st) Orchestration.start :=
  rfl

theorem launchLoop_added (W : World) (k : Category) (dir : String) (snapshots : List String)
    (n : Nat) (st : Orchestration) :
    (launchLoop W k dir snapshots n st).added = st.added := by
  induction n generalizing st with
  | zero => rfl
  | succ n ih =>
    unfold launchLoop
    split
    · rfl
    · split
      · rfl
      · rw [ih]

theorem launchLoop_panicked (W : World) (k : Category) (dir : String)
    (snapshots : List String) (n : Nat) (st : Orchestration)
    (h : (launchLoop W k dir snapshots n st).panicked = false) : st.panicked = false := by
  induction n generalizing st with
  | zero => exact h
  | succ n ih =>
    unfold launchLoop at h
    split at h
    · cases h
    · split at h
      · cases h
      · have h2 := ih _ h
        exact h2

theorem listingFails_iff (W : World) (parent : String) (k : Category) :
    listingFails W parent k = true ↔ ∃ err, W.ReadDir (W.Join parent k.dirName) = .error err := by
  unfold listingFails
  cases W.ReadDir (W.Join parent k.dirName) <;> simp

/-- The block of a category leaves a panic in place. -/
theorem verifyCategory_panicked (W : World) (parent : String) (k : Category)
    (st : Orchestration) (h : (verifyCategory W parent k st).panicked = false) :
    st.panicked = false := by
  cases hst : st.panicked with
  | false => rfl
  | true => rw [verifyCategory_of_panicked W parent k st hst, hst] at h; cases h

/-- The records the block of a category adds: the listing failure when the block is
reached without a panic and the listing fails, nothing otherwise. -/
theorem verifyCategory_added (W : World) (parent : String) (k : Category)
    (st : Orchestration) :
    (st.panicked = false ∧ ∃ err, W.ReadDir (W.Join parent k.dirName) = .error err ∧
      (verifyCategory W parent k st).added = st.added ++ [listingFailure k err]) ∨
    (¬ (st.panicked = false ∧ listingFails W parent k = true) ∧
      (verifyCategory W parent k st).added = st.added) := by
  cases hst : st.panicked with
  | true =>
    right
    exact ⟨by simp, by rw [verifyCategory_of_panicked W parent k st hst]⟩
  | false =>
    cases hl : W.ReadDir (W.Join parent k.dirName) with
    | error err =>
      left
      refine ⟨rfl, err, rfl, ?_⟩
      rw [verifyCategory_of_listing_error W parent k st err hst hl]
      rfl
    | ok snapshots =>
      right
      refine ⟨?_, ?_⟩
      · simp [listingFails, hl]
      · simp only [verifyCategory, hst, hl]
        exact launchLoop_added _ _ _ _ _ _

theorem foldl_verifyCategory_panicked (W : World) (parent : String) (ks : List Category)
    (st : Orchestration)
    (h : (ks.foldl (fun st k => verifyCategory W parent k st) st).panicked = false) :
    st.panicked = false := by
  induction ks generalizing st with
  | nil => exact h
  | cons k ks ih => exact verifyCategory_panicked W parent k st (ih _ h)

/-- The records a run adds itself are as many as the listings that failed during it. -/
theorem foldl_verifyCategory_added_length (W : World) (parent : String)
    (ks : List Category) (st : Orchestration) :
    (ks.foldl (fun st k => verifyCategory W parent k st) st).added.length =
      st.added.length + (failedListings W parent ks st).length := by
  induction ks generalizing st with
  | nil => simp [failedListings]
  | cons k ks ih =>
    simp only [List.foldl_cons, failedListings, List.length_append]
    rw [ih]
    rcases verifyCategory_added W parent k st with ⟨hst, err, hl, hadd⟩ | ⟨hn, hadd⟩
    · have hf : listingFails W parent k = true := (listingFails_iff W parent k).mpr ⟨err, hl⟩
      rw [hadd, if_pos ⟨hst, hf⟩]
      simp [Nat.add_assoc]
    · rw [hadd, if_neg hn]
      simp

/-- Every record a run adds itself is the listing failure of a category. -/
theorem foldl_verifyCategory_added_mem (W : World) (parent : String)
    (ks : List Category) (st : Orchestration)
    (hst : ∀ f ∈ st.added, ∃ k err,
      W.ReadDir (W.Join parent k.dirName) = .error err ∧ f = listingFailure k err) :
    ∀ f ∈ (ks.foldl (fun st k => verifyCategory W parent k st) st).added, ∃ k err,
      W.ReadDir (W.Join parent k.dirName) = .error err ∧ f = listingFailure k err := by
  induction ks generalizing st with
  | nil => exact hst
  | cons k ks ih =>
    apply ih
    intro f hf
    rcases verifyCategory_added W parent k st with ⟨_, err, hl, hadd⟩ | ⟨_, hadd⟩
    · rw [hadd] at hf
      rcases List.mem_append.mp hf with hf | hf
      · exact hst f hf
      · exact ⟨k, err, hl, by simpa using hf⟩
    · rw [hadd] at hf
      exact hst f hf

/-- Without a panic, the listings that failed during the run are all the categories
whose directory cannot be listed. -/
theorem failedListings_of_not_panicked (W : World) (parent : String)
    (ks : List Category) (st : Orchestration)
    (h : (ks.foldl (fun st k => verifyCategory W parent k st) st).panicked = false) :
    failedListings W parent ks st = ks.filter (fun k => listingFails W parent k) := by
  induction ks generalizing st with
  | nil => rfl
  | cons k ks ih =>
    have h1 : (verifyCategory W parent k st).panicked = false :=
      foldl_verifyCategory_panicked W parent ks _ h
    have h0 : st.panicked = false := verifyCategory_panicked W parent k st h1
    simp only [failedListings, ih _ h, List.filter_cons, h0, true_and]
    cases listingFails W parent k <;> simp

/-- The block of a category whose listing succeeds with at least one file launches
the configured number of tasks, each on a file of the listing, and does not panic. -/
theorem verifyCategory_of_nonempty_listing (W : World) (parent : String) (k : Category)
    (st : Orchestration) (snapshots : List String) (hst : st.panicked = false)
    (hlist : W.ReadDir (W.Join parent k.dirName) = .ok snapshots) (hne : snapshots ≠ []) :
    ∃ names : List String, names.length = k.numOfVerify ∧
      (∀ name ∈ names, ∃ r, r < snapshots.length ∧ snapshots.get? r = some name) ∧
      verifyCategory W parent k st =
        { st with
          launched := st.launched ++
            names.map (fun name => ⟨k, W.Join (W.Join parent k.dirName) name⟩),
          draws := st.draws + k.numOfVerify } := by
  obtain ⟨names, hl, hidx, heq⟩ :=
    launchLoop_of_nonempty W k (W.Join parent k.dirName) snapshots hne k.numOfVerify st
  refine ⟨names, hl, hidx, ?_⟩
  unfold verifyCategory
  rw [if_neg (by simp [hst])]
  simp only [hlist]
  exact heq

/-- When every listing succeeds with at least one file, the blocks of the categories
`ks` launch the sum of their configured numbers of tasks and do not panic. -/
theorem foldl_verifyCategory_launched (W : World) (parent : String) (ks : List Category)
    (st : Orchestration) (hst : st.panicked = false)
    (hall : ∀ k ∈ ks, ∃ snapshots, W.ReadDir (W.Join parent k.dirName) = .ok snapshots ∧
      snapshots ≠ []) :
    (ks.foldl (fun st k => verifyCategory W parent k st) st).panicked = false ∧
    (ks.foldl (fun st k => verifyCategory W parent k st) st).launched.length =
      st.launched.length + (ks.map Category.numOfVerify).sum := by
  induction ks generalizing st with
  | nil => exact ⟨hst, by simp⟩
  | cons k ks ih =>
    obtain ⟨snapshots, hlist, hne⟩ := hall k (List.mem_cons_self _ _)
    obtain ⟨names, hl, _, heq⟩ :=
      verifyCategory_of_nonempty_listing W parent k st snapshots hst hlist hne
    have hp : (verifyCategory W parent k st).panicked = false := by rw [heq]; exact hst
    obtain ⟨h1, h2⟩ := ih (verifyCategory W parent k st) hp
      (fun j hj => hall j (List.mem_cons_of_mem _ hj))
    have hlen : (verifyCategory W parent k st).launched.length =
        st.launched.length + k.numOfVerify := by
      rw [heq]
      simp [hl]
    refine ⟨h1, ?_⟩
    simp only [List.foldl_cons, List.map_cons, List.sum_cons]
    rw [h2, hlen]
    omega

/-- When all ten listings succeed with at least one file, the run launches 34 tasks
and does not panic. -/
theorem verifyWithSnapshot_launches_34 (W : World) (parent : String)
    (hall : ∀ k : Category, ∃ snapshots,
      W.ReadDir (W.Join parent k.dirName) = .ok snapshots ∧ snapshots ≠ []) :
    (verifyWithSnapshot W parent).panicked = false ∧
    (verifyWithSnapshot W parent).launched.length = 34 := by
  rw [verifyWithSnapshot_eq_foldl]
  obtain ⟨h1, h2⟩ := foldl_verifyCategory_launched W parent Category.all Orchestration.start
    rfl (fun k _ => hall k)
  exact ⟨h1, by rw [h2]; rfl⟩

/-- The run in which the directory `chair_detail` lists no file panics in its first
block, at `rand.Intn(0)`, before any other directory is listed. -/
theorem verifyWithSnapshot_of_empty_first_listing :
    verifyWithSnapshot (demoWorld ["snap/chair_search_condition"] ["snap/chair_detail"]) "snap"
      = { added := [], launched := [], draws := 0, panicked := true } := by
  decide

/-! ## Lemmas on the last index -/

/-- What the loop of `strings.LastIndexByte` returns: `-1` when none of the positions
below `n` holds `c`, else the greatest position below `n` that holds `c`. -/
theorem lastIndexLoop_spec (s : List Char) (c : Char) (n : Nat) :
    (lastIndexLoop s c n = -1 ∧ ∀ j, j < n → s.get? j ≠ some c) ∨
    ∃ i : Nat, i < n ∧ lastIndexLoop s c n = (i : Int) ∧ s.get? i = some c ∧
      ∀ j, i < j → j < n → s.get? j ≠ some c := by
  induction n with
  | zero => exact Or.inl ⟨rfl, fun j hj => absurd hj (Nat.not_lt_zero j)⟩
  | succ n ih =>
    unfold lastIndexLoop
    by_cases hn : s.get? n = some c
    · rw [if_pos hn]
      exact Or.inr ⟨n, Nat.lt_succ_self n, rfl, hn, fun j h1 h2 => by omega⟩
    · rw [if_neg hn]
      rcases ih with ⟨h1, h2⟩ | ⟨i, hi, h1, h2, h3⟩
      · refine Or.inl ⟨h1, fun j hj => ?_⟩
        by_cases hjn : j = n
        · rw [hjn]; exact hn
        · exact h2 j (by omega)
      · refine Or.inr ⟨i, by omega, h1, h2, fun j hij hj => ?_⟩
        by_cases hjn : j = n
        · rw [hjn]; exact hn
        · exact h3 j hij (by omega)

/-- A resource that passes the path check has its last `/` at a position `idx` that is
not the final one, and no `/` after it. -/
theorem lastIndex_of_pathCheck (resource : String) (h : ¬ pathCheckFails resource) :
    ∃ idx : Nat, LastIndex resource '/' = (idx : Int) ∧ idx + 1 < resource.data.length ∧
      resource.data.get? idx = some '/' ∧
      ∀ j, idx < j → resource.data.get? j ≠ some '/' := by
  unfold pathCheckFails at h
  unfold LastIndex at h ⊢
  rcases lastIndexLoop_spec resource.data '/' resource.data.length with
    ⟨h1, _⟩ | ⟨i, hi, h1, h2, h3⟩
  · exact absurd (Or.inl h1) h
  · refine ⟨i, h1, ?_, h2, fun j hij => ?_⟩
    · have hne : (i : Int) ≠ (resource.data.length : Int) - 1 := fun he =>
        h (Or.inr (h1.trans he))
      omega
    · by_cases hj : j < resource.data.length
      · exact h3 j hij hj
      · rw [List.get?_eq_none.mpr (by omega)]
        simp

/-! ## C11 -/

/-- C11, the code at the inputs of the claim: in the block of a category that is
reached without a panic and whose listing succeeds, a listing with at least one file
makes the block launch exactly the configured number of tasks, each on a file at an
index `r` with `r < len(snapshots)`, as claimed; but an empty listing makes the block
panic at `rand.Intn(0)`: the run crashes and launches none of the tasks. -/
theorem C11_successful_listing (W : World) (parent : String) (k : Category)
    (st : Orchestration) (snapshots : List String) (hst : st.panicked = false)
    (hlist : W.ReadDir (W.Join parent k.dirName) = .ok snapshots) :
    (snapshots ≠ [] →
      ∃ names : List String, names.length = k.numOfVerify ∧
        (∀ name ∈ names, ∃ r, r < snapshots.length ∧ snapshots.get? r = some name) ∧
        verifyCategory W parent k st =
          { st with
            launched := st.launched ++
              names.map (fun name => ⟨k, W.Join (W.Join parent k.dirName) name⟩),
            draws := st.draws + k.numOfVerify }) ∧
    (snapshots = [] → verifyCategory W parent k st = { st with panicked := true }) := by
  constructor
  · intro hne
    exact verifyCategory_of_nonempty_listing W parent k st snapshots hst hlist hne
  · intro he
    subst he
    exact verifyCategory_of_empty_listing W parent k st hst hlist

/-- C11, witness: the directory `chair_detail` lists no file; its block, the first of
the run, panics and launches nothing. -/
theorem C11_successful_listing_witness :
    verifyCategory (demoWorld [] ["snap/chair_detail"]) "snap" .chair_detail Orchestration.start
      = { added := [], launched := [], draws := 0, panicked := true } :=
  (C11_successful_listing (demoWorld [] ["snap/chair_detail"]) "snap" .chair_detail
    Orchestration.start [] rfl rfl).2 rfl

/-! ## Lemmas on a run as a sequence of blocks -/

theorem verifyWithSnapshot_eq_runBlocks (W : World) (parent : String) :
    verifyWithSnapshot W parent = runBlocks W parent Category.all Orchestration.start :=
  rfl

theorem runBlocks_cons (W : World) (parent : String) (k : Category) (ks : List Category)
    (st : Orchestration) :
    runBlocks W parent (k :: ks) st = runBlocks W parent ks (verifyCategory W parent k st) :=
  rfl

theorem runBlocks_append (W : World) (parent : String) (ks js : List Category)
    (st : Orchestration) :
    runBlocks W parent (ks ++ js) st = runBlocks W parent js (runBlocks W parent ks st) := by
  unfold runBlocks
  exact List.foldl_append _ _ _ _

theorem launchLoop_with_added (W : World) (k : Category) (dir : String)
    (snapshots : List String) (n : Nat) (st : Orchestration) (A : List Failure) :
    launchLoop W k dir snapshots n { st with added := A } =
      { launchLoop W k dir snapshots n st with added := A } := by
  induction n generalizing st with
  | zero => rfl
  | succ n ih =>
    cases hI : Intn (W.raw st.draws) snapshots.length with
    | none => simp only [launchLoop, hI]
    | some r =>
      cases hg : snapshots.get? r with
      | none => simp only [launchLoop, hI, hg]
      | some name =>
        simp only [launchLoop, hI, hg]
        exact ih { st with launched := st.launched ++ [⟨k, W.Join dir name⟩],
                           draws := st.draws + 1 }

/-- What the block of a category does to the records is to append some records `Y`
that do not depend on the records already there; the rest of the state does not
depend on the records at all. -/
theorem verifyCategory_with_added (W : World) (parent : String) (k : Category)
    (st : Orchestration) :
    ∃ Y : List Failure, ∀ A : List Failure,
      verifyCategory W parent k { st with added := A } =
        { verifyCategory W parent k st with added := A ++ Y } := by
  rcases Bool.eq_false_or_eq_true st.panicked with hst | hst
  · refine ⟨[], fun A => ?_⟩
    rw [verifyCategory_of_panicked W parent k st hst,
      verifyCategory_of_panicked W parent k { st with added := A } hst]
    simp
  · cases hl : W.ReadDir (W.Join parent k.dirName) with
    | error err =>
      refine ⟨[listingFailure k err], fun A => ?_⟩
      rw [verifyCategory_of_listing_error W parent k st err hst hl,
        verifyCategory_of_listing_error W parent k { st with added := A } err hst hl]
      rfl
    | ok snapshots =>
      refine ⟨[], fun A => ?_⟩
      have e1 : verifyCategory W parent k st =
          launchLoop W k (W.Join parent k.dirName) snapshots k.numOfVerify st := by
        simp [verifyCategory, hst, hl]
      have e2 : verifyCategory W parent k { st with added := A } =
          launchLoop W k (W.Join parent k.dirName) snapshots k.numOfVerify
            { st with added := A } := by
        simp [verifyCategory, hst, hl]
      rw [e1, e2, launchLoop_with_added]
      simp

theorem runBlocks_with_added (W : World) (parent : String) (ks : List Category)
    (st : Orchestration) :
    ∃ Y : List Failure, ∀ A : List Failure,
      runBlocks W parent ks { st with added := A } =
        { runBlocks W parent ks st with added := A ++ Y } := by
  induction ks generalizing st with
  | nil => exact ⟨[], fun A => by simp [runBlocks]⟩
  | cons k ks ih =>
    obtain ⟨Y1, h1⟩ := verifyCategory_with_added W parent k st
    obtain ⟨Y2, h2⟩ := ih (verifyCategory W parent k st)
    refine ⟨Y1 ++ Y2, fun A => ?_⟩
    rw [runBlocks_cons, runBlocks_cons, h1 A]
    have := h2 (A ++ Y1)
    rw [this, List.append_assoc]

/-- The tasks the block of a category launches are tasks of that category on a file
of its listing. -/
theorem verifyCategory_launched (W : World) (parent : String) (k : Category)
    (st : Orchestration) :
    ∀ t ∈ (verifyCategory W parent k st).launched, t ∈ st.launched ∨
      (t.category = k ∧ ∃ snapshots name,
        W.ReadDir (W.Join parent k.dirName) = .ok snapshots ∧ name ∈ snapshots ∧
        t.filePath = W.Join (W.Join parent k.dirName) name) := by
  intro t ht
  rcases Bool.eq_false_or_eq_true st.panicked with hst | hst
  · rw [verifyCategory_of_panicked W parent k st hst] at ht
    exact Or.inl ht
  · cases hl : W.ReadDir (W.Join parent k.dirName) with
    | error err =>
      rw [verifyCategory_of_listing_error W parent k st err hst hl] at ht
      exact Or.inl ht
    | ok snapshots =>
      by_cases hne : snapshots = []
      · subst hne
        rw [verifyCategory_of_empty_listing W parent k st hst hl] at ht
        exact Or.inl ht
      · obtain ⟨names, _, hidx, heq⟩ :=
          verifyCategory_of_nonempty_listing W parent k st snapshots hst hl hne
        rw [heq] at ht
        rcases List.mem_append.mp ht with ht | ht
        · exact Or.inl ht
        · obtain ⟨name, hname, rfl⟩ := List.mem_map.mp ht
          obtain ⟨r, _, hr⟩ := hidx name hname
          exact Or.inr ⟨rfl, snapshots, name, rfl, List.get?_mem hr, rfl⟩

theorem runBlocks_launched (W : World) (parent : String) (ks : List Category)
    (st : Orchestration) :
    ∀ t ∈ (runBlocks W parent ks st).launched, t ∈ st.launched ∨
      (t.category ∈ ks ∧ ∃ snapshots name,
        W.ReadDir (W.Join parent t.category.dirName) = .ok snapshots ∧ name ∈ snapshots ∧
        t.filePath = W.Join (W.Join parent t.category.dirName) name) := by
  induction ks generalizing st with
  | nil => exact fun t ht => Or.inl ht
  | cons k ks ih =>
    intro t ht
    rw [runBlocks_cons] at ht
    rcases ih _ t ht with h | ⟨hmem, h⟩
    · rcases verifyCategory_launched W parent k st t h with h | ⟨hk, h⟩
      · exact Or.inl h
      · exact Or.inr ⟨by rw [hk]; exact List.mem_cons_self _ _, by rw [hk]; exact h⟩
    · exact Or.inr ⟨List.mem_cons_of_mem _ hmem, h⟩

/-! ## Lemmas on runs that agree apart from one category -/

theorem countOf_append (j : Category) (xs ys : List Task) :
    countOf j (xs ++ ys) = countOf j xs + countOf j ys := by
  simp [countOf]

theorem countOf_map_other (j k : Category) (hjk : j ≠ k) (path : String → String)
    (names : List String) :
    countOf j (names.map (fun name => (⟨k, path name⟩ : Task))) = 0 := by
  unfold countOf
  rw [List.length_eq_zero, List.filter_eq_nil_iff]
  intro t ht
  obtain ⟨name, _, rfl⟩ := List.mem_map.mp ht
  simpa using fun h => hjk h.symm

theorem countOf_map_same (k : Category) (path : String → String) (names : List String) :
    countOf k (names.map (fun name => (⟨k, path name⟩ : Task))) = names.length := by
  unfold countOf
  rw [List.filter_eq_self.mpr, List.length_map]
  intro t ht
  obtain ⟨name, _, rfl⟩ := List.mem_map.mp ht
  simp

/-- The number of tasks of each category after the block of a category that is
reached without a panic and whose listing holds a file. -/
theorem verifyCategory_countOf (W : World) (parent : String) (k : Category)
    (st : Orchestration) (snapshots : List String) (hst : st.panicked = false)
    (hlist : W.ReadDir (W.Join parent k.dirName) = .ok snapshots) (hne : snapshots ≠ []) :
    (verifyCategory W parent k st).panicked = false ∧
    (verifyCategory W parent k st).added = st.added ∧
    (∀ j, j ≠ k → countOf j (verifyCategory W parent k st).launched = countOf j st.launched) ∧
    countOf k (verifyCategory W parent k st).launched = countOf k st.launched + k.numOfVerify := by
  obtain ⟨names, hl, _, heq⟩ :=
    verifyCategory_of_nonempty_listing W parent k st snapshots hst hlist hne
  rw [heq]
  refine ⟨hst, rfl, fun j hj => ?_, ?_⟩
  · simp only [countOf_append, countOf_map_other j k hj, Nat.add_zero]
  · simp only [countOf_append, countOf_map_same, hl]

/-- The block of a category other than `k`, in two worlds that list its directory
alike, keeps two states in agreement apart from `k`. -/
theorem verifyCategory_agreeApartFrom (W W2 : World) (parent : String) (k j : Category)
    (P P2 : List Failure) (st st2 : Orchestration) (hjk : j ≠ k)
    (hJoin : W2.Join = W.Join)
    (hRead : W2.ReadDir (W.Join parent j.dirName) = W.ReadDir (W.Join parent j.dirName))
    (h : agreeApartFrom k P P2 st st2) :
    agreeApartFrom k P P2 (verifyCategory W parent j st) (verifyCategory W2 parent j st2) := by
  obtain ⟨hp, hc, later, ha, ha2⟩ := h
  have hRead2 : W2.ReadDir (W2.Join parent j.dirName) = W.ReadDir (W.Join parent j.dirName) := by
    rw [hJoin]; exact hRead
  rcases Bool.eq_false_or_eq_true st.panicked with hst | hst
  · have hst2 : st2.panicked = true := by rw [← hp]; exact hst
    rw [verifyCategory_of_panicked W parent j st hst,
      verifyCategory_of_panicked W2 parent j st2 hst2]
    exact ⟨hp, hc, later, ha, ha2⟩
  · have hst2 : st2.panicked = false := by rw [← hp]; exact hst
    cases hl : W.ReadDir (W.Join parent j.dirName) with
    | error err =>
      rw [verifyCategory_of_listing_error W parent j st err hst hl,
        verifyCategory_of_listing_error W2 parent j st2 err hst2 (hRead2.trans hl)]
      refine ⟨hp, hc, later ++ [listingFailure j err], ?_, ?_⟩
      · show st.added ++ [listingFailure j err] = P ++ (later ++ [listingFailure j err])
        rw [ha, List.append_assoc]
      · show st2.added ++ [listingFailure j err] = P2 ++ (later ++ [listingFailure j err])
        rw [ha2, List.append_assoc]
    | ok snapshots =>
      by_cases hne : snapshots = []
      · subst hne
        rw [verifyCategory_of_empty_listing W parent j st hst hl,
          verifyCategory_of_empty_listing W2 parent j st2 hst2 (hRead2.trans hl)]
        exact ⟨rfl, hc, later, ha, ha2⟩
      · obtain ⟨h1, h2, h3, h4⟩ := verifyCategory_countOf W parent j st snapshots hst hl hne
        obtain ⟨g1, g2, g3, g4⟩ :=
          verifyCategory_countOf W2 parent j st2 snapshots hst2 (hRead2.trans hl) hne
        refine ⟨by rw [h1, g1], fun i hi => ?_, later, by rw [h2]; exact ha,
          by rw [g2]; exact ha2⟩
        by_cases hij : i = j
        · subst hij
          rw [h4, g4, hc i hi]
        · rw [h3 i hij, g3 i hij, hc i hi]

theorem runBlocks_agreeApartFrom (W W2 : World) (parent : String) (k : Category)
    (P P2 : List Failure) (ks : List Category) (st st2 : Orchestration) (hk : k ∉ ks)
    (hJoin : W2.Join = W.Join)
    (hRead : ∀ j, j ≠ k →
      W2.ReadDir (W.Join parent j.dirName) = W.ReadDir (W.Join parent j.dirName))
    (h : agreeApartFrom k P P2 st st2) :
    agreeApartFrom k P P2 (runBlocks W parent ks st) (runBlocks W2 parent ks st2) := by
  induction ks generalizing st st2 with
  | nil => exact h
  | cons j ks ih =>
    have hjk : j ≠ k := fun e => hk (e ▸ List.mem_cons_self _ _)
    rw [runBlocks_cons, runBlocks_cons]
    exact ih _ _ (fun hm => hk (List.mem_cons_of_mem _ hm))
      (verifyCategory_agreeApartFrom W W2 parent k j P P2 st st2 hjk hJoin (hRead j hjk) h)

/-! ## C10 -/

/-- C10: in `verifyWithSnapshot`, with the ten categories processed in the declared
order, when the block of a category `k` is reached and the listing of its directory
fails, the block adds exactly one tooling-fault record for `k` and launches no task,
and the run launches no task of `k` at all. Every other category is listed and
dispatched as in the run without that block: the same tasks are launched, the same
draws are made, the run panics or not alike, and the records are the same apart from
the one record of `k`. And every other category is dispatched as it would be had the
listing succeeded: in any world that differs only in that the directory of `k` lists
at least one file, the run panics or not alike, launches the same number of tasks of
every other category, and adds the same records apart from the one record of `k`. -/
theorem C10_listing_failure (W : World) (parent : String) (k : Category)
    (pre rest : List Category) (err : GoError)
    (hall : Category.all = pre ++ k :: rest)
    (hreach : (runBlocks W parent pre Orchestration.start).panicked = false)
    (hlist : W.ReadDir (W.Join parent k.dirName) = .error err) :
    verifyCategory W parent k (runBlocks W parent pre Orchestration.start) =
      { runBlocks W parent pre Orchestration.start with
        added := (runBlocks W parent pre Orchestration.start).added ++
          [listingFailure k err] } ∧
    (listingFailure k err).code = .ErrBenchmarker ∧
    (∀ t ∈ (verifyWithSnapshot W parent).launched, t.category ≠ k) ∧
    (verifyWithSnapshot W parent).launched =
      (runBlocks W parent (pre ++ rest) Orchestration.start).launched ∧
    (verifyWithSnapshot W parent).draws =
      (runBlocks W parent (pre ++ rest) Orchestration.start).draws ∧
    (verifyWithSnapshot W parent).panicked =
      (runBlocks W parent (pre ++ rest) Orchestration.start).panicked ∧
    ∃ later : List Failure,
      (runBlocks W parent (pre ++ rest) Orchestration.start).added =
        (runBlocks W parent pre Orchestration.start).added ++ later ∧
      (verifyWithSnapshot W parent).added =
        (runBlocks W parent pre Orchestration.start).added ++ listingFailure k err :: later ∧
      ∀ (W2 : World) (snapshots : List String), W2.Join = W.Join →
        (∀ j, j ≠ k →
          W2.ReadDir (W.Join parent j.dirName) = W.ReadDir (W.Join parent j.dirName)) →
        W2.ReadDir (W.Join parent k.dirName) = .ok snapshots → snapshots ≠ [] →
        (verifyWithSnapshot W2 parent).panicked = (verifyWithSnapshot W parent).panicked ∧
        (∀ j, j ≠ k → countOf j (verifyWithSnapshot W2 parent).launched =
          countOf j (verifyWithSnapshot W parent).launched) ∧
        (verifyWithSnapshot W2 parent).added =
          (runBlocks W parent pre Orchestration.start).added ++ later := by
  have hblock := verifyCategory_of_listing_error W parent k
    (runBlocks W parent pre Orchestration.start) err hreach hlist
  obtain ⟨Y, hY⟩ := runBlocks_with_added W parent rest
    (runBlocks W parent pre Orchestration.start)
  have hrun : verifyWithSnapshot W parent =
      { runBlocks W parent (pre ++ rest) Orchestration.start with
        added := (runBlocks W parent pre Orchestration.start).added ++
          [listingFailure k err] ++ Y } := by
    rw [verifyWithSnapshot_eq_runBlocks, hall, runBlocks_append, runBlocks_cons, hblock,
      runBlocks_append]
    exact hY _
  have hskip : (runBlocks W parent (pre ++ rest) Orchestration.start).added =
      (runBlocks W parent pre Orchestration.start).added ++ Y := by
    rw [runBlocks_append]
    have := hY (runBlocks W parent pre Orchestration.start).added
    exact congrArg Orchestration.added this
  have hnodup : (pre ++ k :: rest).Nodup := by
    rw [← hall]
    decide
  have hk : k ∉ pre ++ rest := by
    intro hmem
    have h1 := List.nodup_append.mp hnodup
    have h2 := List.nodup_cons.mp h1.2.1
    rcases List.mem_append.mp hmem with hm | hm
    · exact h1.2.2 hm (List.mem_cons_self _ _)
    · exact h2.1 hm
  have hadded : (verifyWithSnapshot W parent).added =
      (runBlocks W parent pre Orchestration.start).added ++ listingFailure k err :: Y := by
    rw [hrun]
    simp
  refine ⟨hblock, rfl, ?_, ?_, ?_, ?_, Y, hskip, hadded, ?_⟩
  · intro t ht hcat
    rw [hrun] at ht
    rcases runBlocks_launched W parent (pre ++ rest) Orchestration.start t ht with h | ⟨h, _⟩
    · exact absurd h (List.not_mem_nil t)
    · exact hk (hcat ▸ h)
  · rw [hrun]
  · rw [hrun]
  · rw [hrun]
  · intro W2 snapshots hJoin hRead hsucc hne
    have hkpre : k ∉ pre := fun hm => hk (List.mem_append_left _ hm)
    have hkrest : k ∉ rest := fun hm => hk (List.mem_append_right _ hm)
    have h0 : agreeApartFrom k [] [] Orchestration.start Orchestration.start :=
      ⟨rfl, fun _ _ => rfl, [], rfl, rfl⟩
    obtain ⟨hp1, hc1, later1, ha1, ha1'⟩ := runBlocks_agreeApartFrom W W2 parent k [] [] pre
      Orchestration.start Orchestration.start hkpre hJoin hRead h0
    have hst2 : (runBlocks W2 parent pre Orchestration.start).panicked = false := by
      rw [← hp1]; exact hreach
    have hsucc2 : W2.ReadDir (W2.Join parent k.dirName) = .ok snapshots := by
      rw [hJoin]; exact hsucc
    obtain ⟨g1, g2, g3, _⟩ := verifyCategory_countOf W2 parent k
      (runBlocks W2 parent pre Orchestration.start) snapshots hst2 hsucc2 hne
    have hmid : agreeApartFrom k
        ((runBlocks W parent pre Orchestration.start).added ++ [listingFailure k err])
        (runBlocks W parent pre Orchestration.start).added
        (verifyCategory W parent k (runBlocks W parent pre Orchestration.start))
        (verifyCategory W2 parent k (runBlocks W2 parent pre Orchestration.start)) := by
      refine ⟨?_, fun j hj => ?_, [], ?_, ?_⟩
      · rw [hblock, g1]; exact hreach
      · rw [hblock, g3 j hj]; exact hc1 j hj
      · rw [hblock]; simp [listingFailure]
      · rw [g2, ha1', ha1]; simp
    obtain ⟨hp3, hc3, later3, ha3, ha3'⟩ := runBlocks_agreeApartFrom W W2 parent k _ _ rest
      _ _ hkrest hJoin hRead hmid
    have e1 : verifyWithSnapshot W parent =
        runBlocks W parent rest
          (verifyCategory W parent k (runBlocks W parent pre Orchestration.start)) := by
      rw [verifyWithSnapshot_eq_runBlocks, hall, runBlocks_append, runBlocks_cons]
    have e2 : verifyWithSnapshot W2 parent =
        runBlocks W2 parent rest
          (verifyCategory W2 parent k (runBlocks W2 parent pre Orchestration.start)) := by
      rw [verifyWithSnapshot_eq_runBlocks, hall, runBlocks_append, runBlocks_cons]
    rw [← e1] at hp3 hc3 ha3
    rw [← e2] at hp3 hc3 ha3'
    have hl : later3 = Y := by
      rw [hadded, List.append_assoc] at ha3
      have := List.append_cancel_left ha3
      simpa using this.symm
    refine ⟨hp3.symm, fun j hj => (hc3 j hj).symm, ?_⟩
    rw [ha3', hl]

/-- C10, witness: the directory `chair_search_condition` cannot be listed and every
other directory lists two files; the block of `chair_search_condition` is reached
after that of `chair_detail`. -/
theorem C10_listing_failure_witness :
    (verifyWithSnapshot (demoWorld ["snap/chair_search_condition"] []) "snap").launched =
      (runBlocks (demoWorld ["snap/chair_search_condition"] []) "snap"
        ([.chair_detail] ++ [.chair_search, .estate_detail, .estate_search_condition,
          .estate_search, .chair_low_priced, .estate_low_priced,
          .recommended_estate_with_chair, .estate_nazotte]) Orchestration.start).launched :=
  (C10_listing_failure (demoWorld ["snap/chair_search_condition"] []) "snap"
    .chair_search_condition [.chair_detail]
    [.chair_search, .estate_detail, .estate_search_condition, .estate_search,
      .chair_low_priced, .estate_low_priced, .recommended_estate_with_chair, .estate_nazotte]
    ⟨"no such directory"⟩ rfl (by decide) rfl).2.2.2.1

/-! ## Lemmas on the collector -/

theorem foldl_collectStep_none (E : Codec) (c : Client) (schedule : List Event) :
    schedule.foldl (collectStep E c) none = none := by
  induction schedule with
  | nil => rfl
  | cons ev rest ih => exact ih

theorem Event.apply_eq (E : Codec) (c : Client) (ev : Event) (records : List Failure) :
    ev.apply E c records =
      if ev.crashes E c = true then none else some (records ++ ev.records E c) := by
  cases ev with
  | listing err => simp [Event.apply, Event.crashes, Event.records, fails.Add]
  | task t =>
    simp only [Event.apply, Event.crashes, Event.records, Task.body, Task.panics,
      Task.failures]
    cases (t.run E c).outcome with
    | panicked => simp
    | returned err => cases err <;> simp [fails.Add]

/-- The collector after a schedule: a crash when one of its events crashes, else
what its events hand over, in the order of the schedule. -/
theorem foldl_collectStep_some (E : Codec) (c : Client) (schedule : List Event)
    (records : List Failure) :
    schedule.foldl (collectStep E c) (some records) =
      if schedule.any (fun ev => ev.crashes E c) = true then none
      else some (records ++ schedule.flatMap (fun ev => ev.records E c)) := by
  induction schedule generalizing records with
  | nil => simp
  | cons ev rest ih =>
    rw [List.foldl_cons]
    by_cases hc : ev.crashes E c = true
    · have h1 : collectStep E c (some records) ev = none := by
        simp [collectStep, Event.apply_eq, hc]
      rw [h1, foldl_collectStep_none]
      simp [hc]
    · have h1 : collectStep E c (some records) ev = some (records ++ ev.records E c) := by
        simp [collectStep, Event.apply_eq, hc]
      rw [h1, ih]
      simp [hc, List.append_assoc]

theorem events_any_crashes (E : Codec) (c : Client) (st : Orchestration) :
    st.events.any (fun ev => ev.crashes E c) = st.launched.any (fun t => t.panics E c) := by
  rw [Bool.eq_iff_iff]
  simp only [List.any_eq_true, Orchestration.events, List.mem_append, List.mem_map]
  constructor
  · rintro ⟨ev, (⟨f, _, rfl⟩ | ⟨t, ht, rfl⟩), h⟩
    · simp [Event.crashes] at h
    · exact ⟨t, ht, h⟩
  · rintro ⟨t, ht, h⟩
    exact ⟨.task t, Or.inr ⟨t, ht, rfl⟩, h⟩

theorem events_flatMap_records (E : Codec) (c : Client) (st : Orchestration) :
    st.events.flatMap (fun ev => ev.records E c) = st.added ++ st.taskFailures E c := by
  unfold Orchestration.events Orchestration.taskFailures
  rw [List.flatMap_append, List.flatMap_map, List.flatMap_map]
  congr 1
  induction st.added with
  | nil => rfl
  | cons f fs ih => simp only [List.flatMap_cons, ih]; rfl

theorem perm_any_eq {α : Type} (p : α → Bool) (l₁ l₂ : List α) (h : l₁.Perm l₂) :
    l₁.any p = l₂.any p := by
  rw [Bool.eq_iff_iff]
  simp only [List.any_eq_true]
  exact ⟨fun ⟨x, hx, hp⟩ => ⟨x, h.mem_iff.mp hx, hp⟩, fun ⟨x, hx, hp⟩ => ⟨x, h.mem_iff.mpr hx, hp⟩⟩

theorem Task.failures_length (E : Codec) (c : Client) (t : Task) :
    (t.failures E c).length = if t.returnsFailure E c = true then 1 else 0 := by
  unfold Task.failures Task.returnsFailure
  cases (t.run E c).outcome with
  | panicked => simp
  | returned err => cases err <;> simp

theorem flatMap_failures_length (E : Codec) (c : Client) (ts : List Task) :
    (ts.flatMap (fun t => t.failures E c)).length =
      (ts.filter (fun t => t.returnsFailure E c)).length := by
  induction ts with
  | nil => rfl
  | cons t ts ih =>
    simp only [List.flatMap_cons, List.length_append, ih, Task.failures_length,
      List.filter_cons]
    cases t.returnsFailure E c <;> simp [Nat.add_comm]

/-- The collector after a schedule of the events of a run: a crash when the verifier
of a launched task panics, else a rearrangement of the records the run added itself
and the failures the tasks returned. -/
theorem collect_of_perm (E : Codec) (c : Client) (st : Orchestration)
    (schedule : List Event) (hsched : schedule.Perm st.events) :
    (st.launched.any (fun t => t.panics E c) = true → collect E c schedule = none) ∧
    (st.launched.any (fun t => t.panics E c) = false →
      ∃ records, collect E c schedule = some records ∧
        records.Perm (st.added ++ st.taskFailures E c)) := by
  have hany : schedule.any (fun ev => ev.crashes E c) =
      st.launched.any (fun t => t.panics E c) := by
    rw [perm_any_eq _ _ _ hsched, events_any_crashes]
  unfold collect
  rw [foldl_collectStep_some, hany]
  constructor
  · intro h
    simp [h]
  · intro h
    refine ⟨schedule.flatMap (fun ev => ev.records E c), by simp [h], ?_⟩
    rw [← events_flatMap_records]
    exact List.Perm.flatMap_right _ hsched

/-! ## C12 -/

/-- C12: with the collector as an append-only list and the events of a run taken in
any order. Each launched task runs the verifier of its category on a file of that
category's listing; its body appends exactly the failure when the verifier returns
one and nothing when the verifier returns nil, and crashes the process when the
verifier panics. Every record `verifyWithSnapshot` appends itself is the listing
failure of a category. The run returns from its final wait unless it panics or the
verifier of a launched task panics; when it returns, the collector is a
rearrangement of the listing failures and the failures the verifiers returned, none
lost and none twice, and the number of records is the number of categories whose
listing failed plus the number of launched tasks whose verifier returned a
failure. -/
theorem C12_collector_accounting (W : World) (parent : String) (E : Codec) (c : Client)
    (schedule : List Event)
    (hsched : schedule.Perm (verifyWithSnapshot W parent).events) :
    (∀ t ∈ (verifyWithSnapshot W parent).launched,
      t.run E c = t.category.verifier E c t.filePath ∧
      t.category.verifier E c t.filePath =
        (match t.category with
          | .chair_detail => verifyChairDetail E c t.filePath
          | .chair_search_condition => verifyChairSearchCondition E c t.filePath
          | .chair_search => verifyChairSearch E c t.filePath
          | .estate_detail => verifyEstateDetail E c t.filePath
          | .estate_search_condition => verifyEstateSearchCondition E c t.filePath
          | .estate_search => verifyEstateSearch E c t.filePath
          | .chair_low_priced => verifyLowPricedChair E c t.filePath
          | .estate_low_priced => verifyLowPricedEstate E c t.filePath
          | .recommended_estate_with_chair => verifyRecommendedEstateWithChair E c t.filePath
          | .estate_nazotte => verifyEstateNazotte E c t.filePath) ∧
      ∃ snapshots name,
        W.ReadDir (W.Join parent t.category.dirName) = .ok snapshots ∧ name ∈ snapshots ∧
        t.filePath = W.Join (W.Join parent t.category.dirName) name) ∧
    (∀ (t : Task) (collector : List Failure),
      (∀ f, (t.category.verifier E c t.filePath).outcome = .returned (some f) →
        t.body E c collector = some (collector ++ [f])) ∧
      ((t.category.verifier E c t.filePath).outcome = .returned none →
        t.body E c collector = some collector) ∧
      ((t.category.verifier E c t.filePath).outcome = .panicked →
        t.body E c collector = none)) ∧
    (∀ t : Task, t.returnsFailure E c = true ↔
      ∃ f, (t.category.verifier E c t.filePath).outcome = .returned (some f)) ∧
    (∀ f ∈ (verifyWithSnapshot W parent).added, ∃ k err,
      W.ReadDir (W.Join parent k.dirName) = .error err ∧ f = listingFailure k err) ∧
    (collectorAfterRun W parent E c schedule = none ↔
      (verifyWithSnapshot W parent).panicked = true ∨
      ∃ t ∈ (verifyWithSnapshot W parent).launched,
        (t.category.verifier E c t.filePath).outcome = .panicked) ∧
    (∀ records, collectorAfterRun W parent E c schedule = some records →
      records.Perm
        ((verifyWithSnapshot W parent).added ++
          (verifyWithSnapshot W parent).taskFailures E c) ∧
      records.length =
        (Category.all.filter (fun k => listingFails W parent k)).length +
        ((verifyWithSnapshot W parent).launched.filter
          (fun t => t.returnsFailure E c)).length) := by
  obtain ⟨hcrash, hok⟩ := collect_of_perm E c (verifyWithSnapshot W parent) schedule hsched
  have hpanics : ((verifyWithSnapshot W parent).launched.any (fun t => t.panics E c) = true) ↔
      ∃ t ∈ (verifyWithSnapshot W parent).launched,
        (t.category.verifier E c t.filePath).outcome = .panicked := by
    rw [List.any_eq_true]
    constructor
    · rintro ⟨t, ht, hp⟩
      refine ⟨t, ht, ?_⟩
      simp only [Task.panics, Task.run] at hp
      cases ho : (t.category.verifier E c t.filePath).outcome with
      | panicked => rfl
      | returned e => rw [ho] at hp; cases hp
    · rintro ⟨t, ht, hp⟩
      exact ⟨t, ht, by simp [Task.panics, Task.run, hp]⟩
  refine ⟨?_, ?_, ?_, ?_, ?_, ?_⟩
  · intro t ht
    refine ⟨rfl, by cases t.category <;> rfl, ?_⟩
    rw [verifyWithSnapshot_eq_runBlocks] at ht
    rcases runBlocks_launched W parent Category.all Orchestration.start t ht with h | ⟨_, h⟩
    · exact absurd h (List.not_mem_nil t)
    · exact h
  · intro t collector
    refine ⟨?_, ?_, ?_⟩
    · intro f hf
      simp [Task.body, Task.run, hf, fails.Add]
    · intro hf
      simp [Task.body, Task.run, hf]
    · intro hf
      simp [Task.body, Task.run, hf]
  · intro t
    simp only [Task.returnsFailure, Task.run]
    cases (t.category.verifier E c t.filePath).outcome with
    | panicked => simp
    | returned e => cases e <;> simp
  · rw [verifyWithSnapshot_eq_foldl]
    exact foldl_verifyCategory_added_mem W parent Category.all Orchestration.start
      (fun f hf => absurd hf (List.not_mem_nil f))
  · unfold collectorAfterRun
    by_cases hp : (verifyWithSnapshot W parent).panicked = true
    · simp [hp]
    · rw [if_neg hp]
      constructor
      · intro hnone
        right
        apply hpanics.mp
        by_contra hno
        obtain ⟨records, hrec, _⟩ := hok (by simpa using hno)
        rw [hrec] at hnone
        cases hnone
      · rintro (h | h)
        · exact absurd h hp
        · exact hcrash (hpanics.mpr h)
  · intro records hrec
    unfold collectorAfterRun at hrec
    by_cases hp : (verifyWithSnapshot W parent).panicked = true
    · rw [if_pos hp] at hrec
      cases hrec
    · rw [if_neg hp] at hrec
      have hany : (verifyWithSnapshot W parent).launched.any (fun t => t.panics E c) = false := by
        by_contra hno
        rw [hcrash (by simpa using hno)] at hrec
        cases hrec
      obtain ⟨records2, hrec2, hperm⟩ := hok hany
      rw [hrec] at hrec2
      cases hrec2
      refine ⟨hperm, ?_⟩
      have hpf : (verifyWithSnapshot W parent).panicked = false := by simpa using hp
      rw [hperm.length_eq, List.length_append]
      congr 1
      · have hlen := foldl_verifyCategory_added_length W parent Category.all Orchestration.start
        rw [verifyWithSnapshot_eq_foldl] at hpf ⊢
        rw [hlen, failedListings_of_not_panicked W parent Category.all Orchestration.start hpf]
        simp [Orchestration.start]
      · exact flatMap_failures_length E c _

/-- C12, witness: a run in which only `chair_detail` and `chair_search_condition` can
be listed, with the events taken in the reverse of their launch order. No verifier
panics; the collector holds eleven records: the eight listing failures and the
failures of the three tasks whose snapshot has recorded status 500. -/
theorem C12_collector_accounting_witness :
    ∃ records,
      collectorAfterRun demoWorldTwo "snap" demoCodecByFile
        (demoClient (some chairA) none none none)
        (verifyWithSnapshot demoWorldTwo "snap").events.reverse = some records ∧
      records.length = 8 + 3 := by
  have hsome : (collectorAfterRun demoWorldTwo "snap" demoCodecByFile
      (demoClient (some chairA) none none none)
      (verifyWithSnapshot demoWorldTwo "snap").events.reverse).isSome = true := by
    decide
  obtain ⟨records, hrec⟩ := Option.isSome_iff_exists.mp hsome
  have h := ((C12_collector_accounting demoWorldTwo "snap" demoCodecByFile
    (demoClient (some chairA) none none none)
    (verifyWithSnapshot demoWorldTwo "snap").events.reverse
    (List.reverse_perm _)).2.2.2.2.2 records hrec).2
  refine ⟨records, hrec, ?_⟩
  rw [h]
  decide

/-! ## C13 -/

/-- C13: for every resource that passes the path check of the detail verifiers, the
last index `idx` of `/` satisfies `0 ≤ idx` and `idx + 1 < len(resource)`, so both
slices are within bounds; the identifier `resource[idx+1:]` is not empty and holds no
`/`; and `resource = resource[:idx] + "/" + resource[idx+1:]`. -/
theorem C13_identifier_slice (resource : String) (h : ¬ pathCheckFails resource) :
    ∃ idx : Nat, LastIndex resource '/' = (idx : Int) ∧
      idx + 1 < resource.data.length ∧
      identifier resource = sliceFrom resource (idx + 1) ∧
      (identifier resource).data ≠ [] ∧
      '/' ∉ (identifier resource).data ∧
      resource = sliceTo resource idx ++ "/" ++ identifier resource := by
  obtain ⟨idx, hidx, hlt, hget, hafter⟩ := lastIndex_of_pathCheck resource h
  have hid : identifier resource = sliceFrom resource (idx + 1) := by
    unfold identifier
    rw [hidx]
    rfl
  refine ⟨idx, hidx, hlt, hid, ?_, ?_, ?_⟩
  · rw [hid]
    simp only [sliceFrom]
    intro hnil
    have := List.drop_eq_nil_iff.mp hnil
    omega
  · rw [hid]
    simp only [sliceFrom]
    intro hmem
    obtain ⟨n, hn⟩ := List.get?_of_mem hmem
    rw [List.get?_eq_getElem?, List.getElem?_drop, ← List.get?_eq_getElem?] at hn
    exact hafter _ (by omega) hn
  · rw [hid]
    apply String.ext
    simp only [sliceTo, sliceFrom, String.data_append]
    have hlt2 : idx < resource.data.length := by omega
    have hc : resource.data.get ⟨idx, hlt2⟩ = '/' := by
      have := List.get?_eq_get hlt2
      rw [hget] at this
      exact (Option.some.inj this).symm
    have hdrop : resource.data.drop idx = '/' :: resource.data.drop (idx + 1) := by
      rw [List.drop_eq_getElem_cons hlt2]
      congr 1
    calc resource.data = resource.data.take idx ++ resource.data.drop idx :=
          (List.take_append_drop idx resource.data).symm
      _ = resource.data.take idx ++ "/".data ++ resource.data.drop (idx + 1) := by
          rw [hdrop]
          simp

/-- C13, witness: the resource `/api/chair/12` passes the path check. -/
theorem C13_identifier_slice_witness :
    ∃ idx : Nat, LastIndex "/api/chair/12" '/' = (idx : Int) ∧
      idx + 1 < "/api/chair/12".data.length ∧
      identifier "/api/chair/12" = sliceFrom "/api/chair/12" (idx + 1) ∧
      (identifier "/api/chair/12").data ≠ [] ∧
      '/' ∉ (identifier "/api/chair/12").data ∧
      "/api/chair/12" = sliceTo "/api/chair/12" idx ++ "/" ++ identifier "/api/chair/12" :=
  C13_identifier_slice "/api/chair/12" (by decide)

end Scenario
